import Mathlib

/-!
# NeuroProof: scheduler interface, classifier-training loops, stack session

A shallow embedding of
* `pythonNeuroProofPriorityInterface.cpp` (the process-wide edge-priority
  scheduler and its eight entry points),
* `BioPriors/StackLearnAlgs.cpp` (the flat, priority-queue and LASH training
  loops), and
* `Stack/StackSession.cpp` (`load_gt`, `toggle_gt` and `export_session`).

Doubles are taken as exact rationals.  Objects reached through pointers live
in an abstract heap; the collaborators whose code is outside these two files
(the scheduler class, the graph-file reader and writer, the RAG, the feature
manager, the merge queue) are parameters of the embedding.
-/

namespace NeuroProof

/-- Region identifier (`Label`, an unsigned integer). -/
abbrev Label := Nat

/-! ## Scheduler interface -/

/-- The exception type of the interface, `ErrMsg(str)`. -/
structure ErrMsg where
  str : String
deriving DecidableEq, Repr

/-- Message thrown by `initialize_priority_scheduler` on illegal bounds. -/
def boundsErr : ErrMsg := ⟨"Priority scheduler filter bounds not properly set"⟩

/-- Message thrown by `initialize_priority_scheduler` when the file does not parse. -/
def jsonErr : ErrMsg := ⟨"Error: Json incorrectly formatted"⟩

/-- Message thrown by every other entry point while the scheduler is null. -/
def notInitErr : ErrMsg := ⟨"Scheduler not initialized"⟩

/-- Address of a `Rag<Label>` object. -/
abbrev RagPtr := Nat

/-- Address of a `LocalEdgePriority<Label>` object. -/
abbrev SchedPtr := Nat

/-- The value returned by `get_next_edge`; both tuples are empty (`none`) in a
default-constructed `PriorityInfo`. -/
structure PriorityInfo where
  body_pair : Option (Label × Label)
  location : Option (Nat × Nat × Nat)
deriving DecidableEq, Repr

/-- Calls that leave the interface file, in the order they are made. -/
inductive Call where
  | create_rag_from_jsonfile (json_file : String)
  | json_parse (json_file : String)
  | new_LocalEdgePriority (rag : RagPtr) (min_val max_val start_val : ℚ)
  | updatePriority (p : SchedPtr)
  | isFinished (p : SchedPtr)
  | getTopEdge (p : SchedPtr)
  | removeEdge (p : SchedPtr) (body_pair : Label × Label) (remove : Bool)
  | getNumRemaining (p : SchedPtr)
  | getAveragePredictionError (p : SchedPtr)
  | getPercentPredictionCorrect (p : SchedPtr)
  | undo (p : SchedPtr)
  | create_jsonfile_from_rag (rag : Option RagPtr) (json_file : String)
deriving DecidableEq, Repr

/-- Whether a call is a member-function call on a scheduler instance
(`priority_scheduler->...`). -/
def Call.onScheduler : Call → Bool
  | .updatePriority _ => true
  | .isFinished _ => true
  | .getTopEdge _ => true
  | .removeEdge _ _ _ => true
  | .getNumRemaining _ => true
  | .getAveragePredictionError _ => true
  | .getPercentPredictionCorrect _ => true
  | .undo _ => true
  | _ => false

/-- The collaborators of the interface over an abstract heap `H`: the graph-file
reader and writer, the JSON reader, and the member functions of
`LocalEdgePriority<Label>`.  `json_parse` gives `none` when
`json_reader.parse` fails and otherwise the numbers of `json_vals["range"]`
(the empty list when the key is absent, null or an empty array). -/
structure Env (H : Type) where
  create_rag_from_jsonfile : H → String → H × Option RagPtr
  json_parse : H → String → Option (List ℚ)
  new_LocalEdgePriority : H → RagPtr → ℚ → ℚ → ℚ → H × SchedPtr
  updatePriority : H → SchedPtr → H
  isFinished : H → SchedPtr → H × Bool
  getTopEdge : H → SchedPtr → H × ((Label × Label) × (Nat × Nat × Nat))
  removeEdge : H → SchedPtr → Label × Label → Bool → H
  getNumRemaining : H → SchedPtr → H × Nat
  getAveragePredictionError : H → SchedPtr → H × ℚ
  getPercentPredictionCorrect : H → SchedPtr → H × ℚ
  undo : H → SchedPtr → H × Bool
  create_jsonfile_from_rag : H → Option RagPtr → String → H × Bool

/-- The process state seen by the interface: the two file-scope pointers
`priority_scheduler` and `rag`, the heap, the scheduler instances that have
been allocated and not deleted, and the calls made so far. -/
structure Globals (H : Type) where
  priority_scheduler : Option SchedPtr
  rag : Option RagPtr
  heap : H
  live : List SchedPtr
  calls : List Call

/-- State at program start: both pointers are `0`. -/
def Globals.init {H : Type} (h : H) : Globals H :=
  { priority_scheduler := none, rag := none, heap := h, live := [], calls := [] }

/-- The statement `delete p`: a null pointer is left alone, any other address
leaves the live instances. -/
def deleteSched {H : Type} (g : Globals H) (p : Option SchedPtr) : Globals H :=
  match p with
  | none => g
  | some a => { g with live := g.live.filter (fun b => b != a) }

/-- The test of line 23: some bound is illegal. -/
def boundsIllegal (min_val max_val start_val : ℚ) : Bool :=
  decide (min_val < 0) || decide (max_val > 1) || decide (min_val > max_val) ||
    decide (start_val > max_val) || decide (start_val < min_val)

/-- Lines 43-48: a non-empty `range` entry replaces the three bounds by
`(range[0], range[1], range[0])`; a missing element reads as `0`. -/
def applyRange (json_range : List ℚ) (min_val max_val start_val : ℚ) : ℚ × ℚ × ℚ :=
  if !json_range.isEmpty then
    (json_range.getD 0 0, json_range.getD 1 0, json_range.getD 0 0)
  else
    (min_val, max_val, start_val)

/-- The function `initialize_priority_scheduler`: a thrown `ErrMsg` is
`Except.error`, a returned `bool` is `Except.ok`. -/
def initialize_priority_scheduler {H : Type} (env : Env H) (json_file : String)
    (min_val max_val start_val : ℚ) (g : Globals H) : Except ErrMsg Bool × Globals H :=
  if boundsIllegal min_val max_val start_val then
    (.error boundsErr, g)
  else
    let g1 := if g.priority_scheduler.isNone then deleteSched g g.priority_scheduler else g
    let r := env.create_rag_from_jsonfile g1.heap json_file
    let g2 : Globals H :=
      { g1 with rag := r.2, heap := r.1,
                calls := g1.calls ++ [Call.create_rag_from_jsonfile json_file] }
    match r.2 with
    | none => (.ok false, g2)
    | some ragp =>
      let g3 : Globals H := { g2 with calls := g2.calls ++ [Call.json_parse json_file] }
      match env.json_parse g2.heap json_file with
      | none => (.error jsonErr, g3)
      | some json_range =>
        let b := applyRange json_range min_val max_val start_val
        let n := env.new_LocalEdgePriority g3.heap ragp b.1 b.2.1 b.2.2
        let h := env.updatePriority n.1 n.2
        (.ok true,
          { g3 with priority_scheduler := some n.2, heap := h, live := g3.live ++ [n.2],
                    calls := g3.calls ++
                      [Call.new_LocalEdgePriority ragp b.1 b.2.1 b.2.2, Call.updatePriority n.2] })

/-- The function `export_priority_scheduler`. -/
def export_priority_scheduler {H : Type} (env : Env H) (json_file : String)
    (g : Globals H) : Except ErrMsg Bool × Globals H :=
  match g.priority_scheduler with
  | none => (.error notInitErr, g)
  | some _ =>
    let r := env.create_jsonfile_from_rag g.heap g.rag json_file
    (.ok r.2, { g with heap := r.1,
                       calls := g.calls ++ [Call.create_jsonfile_from_rag g.rag json_file] })

/-- The function `get_next_edge`. -/
def get_next_edge {H : Type} (env : Env H) (g : Globals H) :
    Except ErrMsg PriorityInfo × Globals H :=
  let priority_info : PriorityInfo := ⟨none, none⟩
  match g.priority_scheduler with
  | none => (.error notInitErr, g)
  | some p =>
    let f := env.isFinished g.heap p
    let g1 : Globals H := { g with heap := f.1, calls := g.calls ++ [Call.isFinished p] }
    if f.2 then
      (.ok priority_info, g1)
    else
      let t := env.getTopEdge g1.heap p
      (.ok ⟨some t.2.1, some t.2.2⟩,
        { g1 with heap := t.1, calls := g1.calls ++ [Call.getTopEdge p] })

/-- The function `set_edge_result`; the Python tuple is taken as already
holding two labels. -/
def set_edge_result {H : Type} (env : Env H) (body_pair : Label × Label) (remove : Bool)
    (g : Globals H) : Except ErrMsg Unit × Globals H :=
  match g.priority_scheduler with
  | none => (.error notInitErr, g)
  | some p =>
    (.ok (), { g with heap := env.removeEdge g.heap p body_pair remove,
                      calls := g.calls ++ [Call.removeEdge p body_pair remove] })

/-- The function `get_estimated_num_remaining_edges`. -/
def get_estimated_num_remaining_edges {H : Type} (env : Env H) (g : Globals H) :
    Except ErrMsg Nat × Globals H :=
  match g.priority_scheduler with
  | none => (.error notInitErr, g)
  | some p =>
    let r := env.getNumRemaining g.heap p
    (.ok r.2, { g with heap := r.1, calls := g.calls ++ [Call.getNumRemaining p] })

/-- The function `get_average_prediction_error`. -/
def get_average_prediction_error {H : Type} (env : Env H) (g : Globals H) :
    Except ErrMsg ℚ × Globals H :=
  match g.priority_scheduler with
  | none => (.error notInitErr, g)
  | some p =>
    let r := env.getAveragePredictionError g.heap p
    (.ok r.2, { g with heap := r.1, calls := g.calls ++ [Call.getAveragePredictionError p] })

/-- The function `get_percent_prediction_correct`. -/
def get_percent_prediction_correct {H : Type} (env : Env H) (g : Globals H) :
    Except ErrMsg ℚ × Globals H :=
  match g.priority_scheduler with
  | none => (.error notInitErr, g)
  | some p =>
    let r := env.getPercentPredictionCorrect g.heap p
    (.ok r.2, { g with heap := r.1, calls := g.calls ++ [Call.getPercentPredictionCorrect p] })

/-- The function `undo`. -/
def undo {H : Type} (env : Env H) (g : Globals H) : Except ErrMsg Bool × Globals H :=
  match g.priority_scheduler with
  | none => (.error notInitErr, g)
  | some p =>
    let r := env.undo g.heap p
    (.ok r.2, { g with heap := r.1, calls := g.calls ++ [Call.undo p] })

/-- A small concrete world used to run the interface: the heap is the number
of objects allocated so far, `new` returns that number as the address, every
file exists, and the file named `"ranged.json"` embeds `range = [1/4, 3/4]`
while every other file has no `range`. -/
def demoEnv : Env Nat where
  create_rag_from_jsonfile h _ := (h + 1, some h)
  json_parse _ f := if f = "ranged.json" then some [1/4, 3/4] else some []
  new_LocalEdgePriority h _ _ _ _ := (h + 1, h)
  updatePriority h _ := h
  isFinished h _ := (h, false)
  getTopEdge h _ := (h, ((1, 2), (0, 0, 0)))
  removeEdge h _ _ _ := h
  getNumRemaining h _ := (h, 0)
  getAveragePredictionError h _ := (h, 0)
  getPercentPredictionCorrect h _ := (h, 0)
  undo h _ := (h, false)
  create_jsonfile_from_rag h _ _ := (h, true)

/-- A state in which a scheduler at address `1` for the graph at address `0`
is installed. -/
def demoReady : Globals Nat :=
  { priority_scheduler := some 1, rag := some 0, heap := 2, live := [1], calls := [] }

/-! ## Training loops -/

/-- An edge of the RAG as the training loops see it: the identifiers of its two
nodes, the `preserve` and `false_edge` flags, its weight, and the property
`"qloc"` (`none` while unset). -/
structure RagEdge where
  node1 : Label
  node2 : Label
  preserve : Bool
  false_edge : Bool
  weight : ℚ
  qloc : Option Nat
deriving DecidableEq, Repr

/-- Modelled from the spec: the queue element `QE` of `MergePriorityQueue.h`,
which is not among the sources; it is `{weight, endpoints, valid}`, and an
element built by `QE(val, pair)` is valid. -/
structure QE where
  weight : ℚ
  val : Label × Label
  valid : Bool
deriving DecidableEq, Repr

/-- The controller: the edges of `stack->get_rag()` in iteration order, and
everything else it owns (volumes, ground-truth assignment, feature manager,
classifier) as `ext`. -/
structure BioStackController (X : Type) where
  rag : List RagEdge
  ext : X

/-- The collaborators of the training loops whose code is outside
`StackLearnAlgs.cpp`: the controller and RAG member functions, the feature
manager with its classifier, the merge queue `Qt` (which owns the storage
vector after `set_storage` and may write `qloc` on edges), `merge_labels` with
the `PriorityQCombine` strategy (which changes both the graph and the queue),
and the Unique Row Set `U`. -/
structure Collab (X Qt U : Type) where
  build_rag : BioStackController X → BioStackController X
  build_rag_mito : BioStackController X → BioStackController X
  remove_inclusions : BioStackController X → BioStackController X
  compute_groundtruth_assignment : BioStackController X → BioStackController X
  get_prob : BioStackController X → RagEdge → ℚ
  find_rag_edge : BioStackController X → Label → Label → Option RagEdge
  find_edge_label : BioStackController X → Label → Label → Int
  is_mito : BioStackController X → Label → Bool
  compute_all_features : BioStackController X → RagEdge → List ℚ
  is_trained : BioStackController X → Bool
  predict : BioStackController X → List ℚ → ℚ
  learn : BioStackController X → List (List ℚ) → List Int → BioStackController X
  set_storage : BioStackController X → List QE → BioStackController X × Qt
  is_empty : Qt → Bool
  heap_extract_min : BioStackController X × Qt → QE × (BioStackController X × Qt)
  merge_labels : BioStackController X × Qt → Label → Label → BioStackController X × Qt
  insert : U → List ℚ → U
  clear : U → U
  get_feature_label : U → List Int → List (List ℚ) × List Int

section Training

variable {X Qt U : Type}

/-- The function `preprocess_stack` (lines 8-27). -/
def preprocess_stack (env : Collab X Qt U) (controller : BioStackController X)
    (use_mito : Bool) : BioStackController X :=
  let c1 := if use_mito then env.build_rag_mito controller else env.build_rag controller
  let c2 := env.remove_inclusions c1
  env.compute_groundtruth_assignment c2

/-- The edge label of lines 48-52, 131-135 and 234-238 (the same text in all
three functions): the oracle's value, replaced by `1` when `use_mito` holds and
one of the two labels is a mitochondrion. -/
def edge_label_of (env : Collab X Qt U) (controller : BioStackController X)
    (use_mito : Bool) (label1 label2 : Label) : Int :=
  let edge_label := env.find_edge_label controller label1 label2
  if use_mito && (env.is_mito controller label1 || env.is_mito controller label2) then 1
  else edge_label

/-- What a training loop carries from one iteration to the next: the
controller, the queue, the Unique Row Set, and, as a record of what was done,
the rows passed to `insert` and the `(remove, keep)` arguments of the
`merge_labels` calls, both in call order. -/
structure LoopState (X Qt U : Type) where
  controller : BioStackController X
  Q : Qt
  all_featuresu : U
  inserted : List (List ℚ)
  merged : List (Label × Label)

/-- The statements `feature.push_back(edge_label); all_featuresu.insert(feature);`. -/
def LoopState.insertRow (env : Collab X Qt U) (s : LoopState X Qt U) (feature : List ℚ)
    (edge_label : Int) : LoopState X Qt U :=
  { s with all_featuresu := env.insert s.all_featuresu (feature ++ [(edge_label : ℚ)]),
           inserted := s.inserted ++ [feature ++ [(edge_label : ℚ)]] }

/-- The statement `controller.merge_labels(label2, label1, &node_combine_alg);`. -/
def LoopState.mergeLabels (env : Collab X Qt U) (s : LoopState X Qt U)
    (label2 label1 : Label) : LoopState X Qt U :=
  { s with controller := (env.merge_labels (s.controller, s.Q) label2 label1).1,
           Q := (env.merge_labels (s.controller, s.Q) label2 label1).2,
           merged := s.merged ++ [(label2, label1)] }

/-- Lines 39-62, the edge loop of `learn_edge_classifier_flat`, over the edges
still to visit. -/
def flat_loop (env : Collab X Qt U) (controller : BioStackController X) (use_mito : Bool) :
    List RagEdge → U × List (List ℚ) → U × List (List ℚ)
  | [], acc => acc
  | rag_edge :: rest, acc =>
    if !rag_edge.preserve && !rag_edge.false_edge then
      let label1 := rag_edge.node1
      let label2 := rag_edge.node2
      let edge_label := edge_label_of env controller use_mito label1 label2
      if edge_label ≠ 0 then
        let feature := env.compute_all_features controller rag_edge
        flat_loop env controller use_mito rest
          (env.insert acc.1 (feature ++ [(edge_label : ℚ)]),
            acc.2 ++ [feature ++ [(edge_label : ℚ)]])
      else flat_loop env controller use_mito rest acc
    else flat_loop env controller use_mito rest acc

/-- Lines 91-106 and 191-208, the seeding loop: `done` are the edges already
visited, the second list the edges still to visit.  Each unfiltered edge gets
its weight set to `get_prob`, its `"qloc"` set to `count`, and an element
pushed on `all_edges`.  (`count` is an `int`; the model does not wrap it.) -/
def seed_loop (env : Collab X Qt U) (ext : X) :
    List RagEdge → List RagEdge → List QE → Nat → List RagEdge × List QE
  | done, [], all_edges, _ => (done, all_edges)
  | done, e :: rest, all_edges, count =>
    if !e.preserve && !e.false_edge then
      let val := env.get_prob ⟨done ++ e :: rest, ext⟩ e
      let node1 := e.node1
      let node2 := e.node2
      seed_loop env ext (done ++ [{ e with weight := val, qloc := some count }]) rest
        (all_edges ++ [⟨val, (node1, node2), true⟩]) (count + 1)
    else seed_loop env ext (done ++ [e]) rest all_edges count

/-- The class predicted for a feature vector, `(predp > threshold) ? 1 : -1`
(lines 147-148). -/
def predl (env : Collab X Qt U) (controller : BioStackController X) (threshold : ℚ)
    (feature : List ℚ) : Int :=
  let predp := env.predict controller feature
  if predp > threshold then 1 else -1

/-- Lines 137-155, the block `if (edge_label) { ... }` of
`learn_edge_classifier_queue`. -/
def queue_rows (env : Collab X Qt U) (threshold : ℚ) (accumulate_all : Bool)
    (s0 : LoopState X Qt U) (rag_edge : RagEdge) (edge_label : Int) : LoopState X Qt U :=
  if edge_label ≠ 0 then
    let feature := env.compute_all_features s0.controller rag_edge
    if accumulate_all then s0.insertRow env feature edge_label
    else if env.is_trained s0.controller then
      if predl env s0.controller threshold feature ≠ edge_label then
        s0.insertRow env feature edge_label
      else s0
    else s0
  else s0

/-- Lines 244-251, the block `if (edge_label) { ... }` of
`learn_edge_classifier_lash`. -/
def lash_rows (env : Collab X Qt U) (s0 : LoopState X Qt U) (rag_edge : RagEdge)
    (edge_label : Int) : LoopState X Qt U :=
  if edge_label ≠ 0 then
    let feature := env.compute_all_features s0.controller rag_edge
    s0.insertRow env feature edge_label
  else s0

/-- Lines 115-159, one iteration of the `while` loop of
`learn_edge_classifier_queue`. -/
def queue_body (env : Collab X Qt U) (threshold : ℚ) (accumulate_all use_mito : Bool)
    (s : LoopState X Qt U) : LoopState X Qt U :=
  let x := env.heap_extract_min (s.controller, s.Q)
  let tmpqe := x.1
  let s0 : LoopState X Qt U := { s with controller := x.2.1, Q := x.2.2 }
  let node1 := tmpqe.val.1
  let node2 := tmpqe.val.2
  match env.find_rag_edge s0.controller node1 node2 with
  | none => s0
  | some rag_edge =>
    if !tmpqe.valid then s0
    else
      let label1 := rag_edge.node1
      let label2 := rag_edge.node2
      let edge_label := edge_label_of env s0.controller use_mito label1 label2
      let s1 := queue_rows env threshold accumulate_all s0 rag_edge edge_label
      if edge_label = -1 then s1.mergeLabels env label2 label1 else s1

/-- Lines 216-255, one iteration of the `while` loop of
`learn_edge_classifier_lash`. -/
def lash_body (env : Collab X Qt U) (use_mito : Bool) (s : LoopState X Qt U) :
    LoopState X Qt U :=
  let x := env.heap_extract_min (s.controller, s.Q)
  let tmpqe := x.1
  let s0 : LoopState X Qt U := { s with controller := x.2.1, Q := x.2.2 }
  let node1 := tmpqe.val.1
  let node2 := tmpqe.val.2
  match env.find_rag_edge s0.controller node1 node2 with
  | none => s0
  | some rag_edge =>
    if !tmpqe.valid then s0
    else
      let label1 := rag_edge.node1
      let label2 := rag_edge.node2
      let edge_label := edge_label_of env s0.controller use_mito label1 label2
      let s1 := lash_rows env s0 rag_edge edge_label
      if edge_label = -1 then s1.mergeLabels env label2 label1 else s1

/-- The loop `while (!Q->is_empty()) body`, run for at most `fuel` iterations;
`none` when the queue is still not empty after that many. -/
def while_loop (env : Collab X Qt U) (body : LoopState X Qt U → LoopState X Qt U) :
    Nat → LoopState X Qt U → Option (LoopState X Qt U)
  | 0, s => if env.is_empty s.Q then some s else none
  | fuel + 1, s => if env.is_empty s.Q then some s else while_loop env body fuel (body s)

/-- What a training function leaves behind: the controller after
`classifier->learn`, the caller's `all_featuresu` and `all_labels`, the
arguments of the `learn` call, and the record of inserts and merges. -/
structure LearnResult (X U : Type) where
  controller : BioStackController X
  all_featuresu : U
  all_labels : List Int
  learn_features : List (List ℚ)
  learn_labels : List Int
  inserted : List (List ℚ)
  merged : List (Label × Label)

/-- Lines 64-68, 162-167 and 259-264: extract `(all_features, all_labels)` from
the Unique Row Set and call `learn`.  The accuracy report that follows only
prints and is left out. -/
def finish_learning (env : Collab X Qt U) (controller : BioStackController X)
    (all_featuresu : U) (all_labels : List Int) (inserted : List (List ℚ))
    (merged : List (Label × Label)) : LearnResult X U :=
  let fl := env.get_feature_label all_featuresu all_labels
  { controller := env.learn controller fl.1 fl.2,
    all_featuresu := all_featuresu,
    all_labels := fl.2,
    learn_features := fl.1,
    learn_labels := fl.2,
    inserted := inserted,
    merged := merged }

/-- The function `learn_edge_classifier_flat`. -/
def learn_edge_classifier_flat (env : Collab X Qt U) (controller : BioStackController X)
    (_threshold : ℚ) (all_featuresu : U) (all_labels : List Int) (use_mito : Bool) :
    LearnResult X U :=
  let c := preprocess_stack env controller use_mito
  let r := flat_loop env c use_mito c.rag (all_featuresu, [])
  finish_learning env c r.1 all_labels r.2 []

/-- The state in which the `while` loop starts: the seeded edges, the queue
built by `set_storage` on `all_edges`, nothing inserted or merged yet. -/
def start_queue (env : Collab X Qt U) (c : BioStackController X) (all_featuresu : U) :
    LoopState X Qt U :=
  let seeded := seed_loop env c.ext [] c.rag [] 0
  let sq := env.set_storage ⟨seeded.1, c.ext⟩ seeded.2
  { controller := sq.1, Q := sq.2, all_featuresu := all_featuresu, inserted := [], merged := [] }

/-- The function `learn_edge_classifier_queue`, with at most `fuel` iterations
of its `while` loop. -/
def learn_edge_classifier_queue (env : Collab X Qt U) (fuel : Nat)
    (controller : BioStackController X) (threshold : ℚ) (all_featuresu : U)
    (all_labels : List Int) (accumulate_all use_mito : Bool) : Option (LearnResult X U) :=
  let c := preprocess_stack env controller use_mito
  match while_loop env (queue_body env threshold accumulate_all use_mito) fuel
      (start_queue env c all_featuresu) with
  | none => none
  | some s => some (finish_learning env s.controller s.all_featuresu all_labels s.inserted s.merged)

/-- The function `learn_edge_classifier_lash`, with at most `fuel` iterations
of its `while` loop. -/
def learn_edge_classifier_lash (env : Collab X Qt U) (fuel : Nat)
    (controller : BioStackController X) (_threshold : ℚ) (all_featuresu : U)
    (_all_labels : List Int) (use_mito : Bool) : Option (LearnResult X U) :=
  let c := preprocess_stack env controller use_mito
  let all_featuresu := env.clear all_featuresu
  let all_labels : List Int := []
  match while_loop env (lash_body env use_mito) fuel (start_queue env c all_featuresu) with
  | none => none
  | some s => some (finish_learning env s.controller s.all_featuresu all_labels s.inserted s.merged)

/-- The element `tmpqe` that `Q->heap_extract_min()` returns in state `s`. -/
def LoopState.tmpqe (env : Collab X Qt U) (s : LoopState X Qt U) : QE :=
  (env.heap_extract_min (s.controller, s.Q)).1

/-- The state right after `Q->heap_extract_min()`: only the queue (and what the
queue writes on the graph) has moved on. -/
def LoopState.popped (env : Collab X Qt U) (s : LoopState X Qt U) : LoopState X Qt U :=
  { s with controller := (env.heap_extract_min (s.controller, s.Q)).2.1,
           Q := (env.heap_extract_min (s.controller, s.Q)).2.2 }

/-- The result of `rag->find_rag_edge(node1, node2)` for the dequeued element. -/
def LoopState.rag_edge (env : Collab X Qt U) (s : LoopState X Qt U) : Option RagEdge :=
  env.find_rag_edge (s.popped env).controller (s.tmpqe env).val.1 (s.tmpqe env).val.2

/-- The rows the specification asks the flat pass to offer, in edge order: for
each edge that is not filtered and has a non-zero label, its feature vector
followed by the label. -/
def offered_rows_spec (env : Collab X Qt U) (controller : BioStackController X)
    (use_mito : Bool) (edges : List RagEdge) : List (List ℚ) :=
  (edges.filter (fun e => !e.preserve && !e.false_edge &&
      decide (edge_label_of env controller use_mito e.node1 e.node2 ≠ 0))).map
    (fun e => env.compute_all_features controller e ++
      [((edge_label_of env controller use_mito e.node1 e.node2 : Int) : ℚ)])

/-- The edge filter of lines 94 and 195: the edge is neither preserved nor a
false edge, so the seeding loop visits it. -/
def RagEdge.unfiltered (e : RagEdge) : Bool := !e.preserve && !e.false_edge

/-- The element `QE(val, make_pair(node1, node2))` that the seeding loop pushes
for an edge whose weight it has just set to `val`. -/
def RagEdge.toQE (e : RagEdge) : QE := ⟨e.weight, (e.node1, e.node2), true⟩

end Training

/-! ## The Unique Row Set and a small concrete world -/

/-- Modelled from the spec: the Unique Row Set (`UniqueRowFeature_Label`, whose
code is not among the sources).  Rows are keyed by all columns but the last;
inserting a row whose key is present changes nothing, so the first-seen label
stays.  The rows are held in order of first insertion. -/
structure UniqueRowFeature_Label where
  rows : List (List ℚ)
deriving DecidableEq, Repr

/-- The key of a row: every column but the label column. -/
def rowKey (row : List ℚ) : List ℚ := row.dropLast

/-- The label column of a row, read back as an `int`. -/
def rowLabel (row : List ℚ) : Int := (row.getLast?.getD 0).floor

/-- Modelled from the spec: `insert` of the Unique Row Set. -/
def UniqueRowFeature_Label.insert (u : UniqueRowFeature_Label) (row : List ℚ) :
    UniqueRowFeature_Label :=
  if u.rows.any (fun r => decide (rowKey r = rowKey row)) then u else ⟨u.rows ++ [row]⟩

/-- Modelled from the spec: `clear` of the Unique Row Set. -/
def UniqueRowFeature_Label.clear (_u : UniqueRowFeature_Label) : UniqueRowFeature_Label := ⟨[]⟩

/-- Modelled from the spec: `get_feature_label` of the Unique Row Set, the
feature columns and the label column of every row. -/
def UniqueRowFeature_Label.get_feature_label (u : UniqueRowFeature_Label)
    (_all_labels : List Int) : List (List ℚ) × List Int :=
  (u.rows.map rowKey, u.rows.map rowLabel)

/-- Whether an edge joins the two labels, in either order. -/
def RagEdge.joins (e : RagEdge) (a b : Label) : Bool :=
  (e.node1 == a && e.node2 == b) || (e.node1 == b && e.node2 == a)

/-- Whether a queue element names the two labels, in either order. -/
def QE.joins (q : QE) (a b : Label) : Bool :=
  (q.val.1 == a && q.val.2 == b) || (q.val.1 == b && q.val.2 == a)

/-- Merge probability in the demo world: a tenth of the sum of the two labels. -/
def demoProb (e : RagEdge) : ℚ := ((e.node1 + e.node2 : Nat) : ℚ) / 10

/-- Demo queue: mark every element naming the two labels as invalid. -/
def demoInvalidate (q : List QE) (a b : Label) : List QE :=
  q.map (fun qe => if qe.joins a b then { qe with valid := false } else qe)

/-- Demo queue: the element of least weight, the earliest one among equals. -/
def demoMin : List QE → Option QE
  | [] => none
  | qe :: rest =>
    match demoMin rest with
    | none => some qe
    | some m => if m.weight < qe.weight then some m else some qe

/-- Demo queue: `heap_extract_min` on a list of pending elements. -/
def demoExtract (q : List QE) : QE × List QE :=
  match demoMin q with
  | none => (⟨0, (0, 0), false⟩, q)
  | some m => (m, q.erase m)

/-- Modelled from the spec: what `join_nodes(keep, remove)` with the
`PriorityQCombine` strategy does with one edge `e` of `remove`, whose code is
not among the sources.  The edge leaves the graph and its queue element goes
stale; when its other end `x` is not `keep`, either an edge `(keep, x)` exists
and is re-weighted and re-queued, or `e` is moved to `(keep, x)`, re-weighted
and re-queued. -/
def demoJoinEdge (keep remove : Label) (acc : List RagEdge × List QE) (e : RagEdge) :
    List RagEdge × List QE :=
  let x := if e.node1 = remove then e.node2 else e.node1
  let rag := acc.1.filter (fun f => !f.joins remove x)
  let q := demoInvalidate acc.2 remove x
  if x = keep then (rag, q)
  else
    match rag.find? (fun f => f.joins keep x) with
    | some existing =>
      (rag.map (fun f => if f.joins keep x then { f with weight := demoProb existing } else f),
        demoInvalidate q keep x ++ [⟨demoProb existing, (existing.node1, existing.node2), true⟩])
    | none =>
      let moved : RagEdge := { e with node1 := keep, node2 := x }
      (rag ++ [{ moved with weight := demoProb moved }], q ++ [⟨demoProb moved, (keep, x), true⟩])

/-- Modelled from the spec: `merge_labels(remove, keep)` in the demo world. -/
def demoMerge (cq : BioStackController Unit × List QE) (remove keep : Label) :
    BioStackController Unit × List QE :=
  let r := (cq.1.rag.filter (fun e => e.node1 == remove || e.node2 == remove)).foldl
    (demoJoinEdge keep remove) (cq.1.rag, cq.2)
  (⟨r.1, ()⟩, r.2)

/-- A small concrete world for the training loops.  The controller passed in
already holds its RAG, so the preprocessing steps change nothing.  `body` gives
each region its ground-truth body (`0` for none): an edge is labelled `0` when
an end has no body, `-1` when both ends have the same body and `1` otherwise.
Every edge has the one-column feature vector `[1/2]`, and the classifier
answers `p` to every query. -/
def demoCollab (body : Label → Nat) (mito : Label → Bool) (trained : Bool) (p : ℚ) :
    Collab Unit (List QE) UniqueRowFeature_Label where
  build_rag c := c
  build_rag_mito c := c
  remove_inclusions c := c
  compute_groundtruth_assignment c := c
  get_prob _ e := demoProb e
  find_rag_edge c a b := c.rag.find? (fun e => e.joins a b)
  find_edge_label _ a b :=
    if body a = 0 ∨ body b = 0 then 0 else if body a = body b then -1 else 1
  is_mito _ l := mito l
  compute_all_features _ _ := [1/2]
  is_trained _ := trained
  predict _ _ := p
  learn c _ _ := c
  set_storage c all_edges := (c, all_edges)
  is_empty q := q.isEmpty
  heap_extract_min cq := ((demoExtract cq.2).1, (cq.1, (demoExtract cq.2).2))
  merge_labels := demoMerge
  insert := UniqueRowFeature_Label.insert
  clear := UniqueRowFeature_Label.clear
  get_feature_label := UniqueRowFeature_Label.get_feature_label

/-- An unfiltered, unseeded edge between two regions. -/
def demoEdge (a b : Label) : RagEdge :=
  { node1 := a, node2 := b, preserve := false, false_edge := false, weight := 0, qloc := none }

/-- Ground truth of the demo stack: regions 1 and 2 are bodies of their own,
regions 3 and 4 are two pieces of one body. -/
def demoBody (l : Label) : Nat := if l = 4 then 3 else l

/-- A stack of four regions with the two edges `(1, 2)` and `(3, 4)`. -/
def demoStack : BioStackController Unit := ⟨[demoEdge 1 2, demoEdge 3 4], ()⟩

/-- The demo world with no mitochondria and a trained classifier that answers
`9/10` to every query. -/
def demoWorld : Collab Unit (List QE) UniqueRowFeature_Label :=
  demoCollab demoBody (fun _ => false) true (9/10)

/-- The demo stack seeded and queued: both edges wait in the queue. -/
def demoQueued : LoopState Unit (List QE) UniqueRowFeature_Label :=
  start_queue demoWorld demoStack ⟨[]⟩

/-- The demo stack after one iteration in accumulate-all mode: edge `(1, 2)` has
been examined, edge `(3, 4)` is next. -/
def demoSecond : LoopState Unit (List QE) UniqueRowFeature_Label :=
  queue_body demoWorld (1/2) true false demoQueued

/-- A stack of three regions, pairwise adjacent; regions 3 and 4 are one body. -/
def demoTriangle : BioStackController Unit := ⟨[demoEdge 3 4, demoEdge 4 5, demoEdge 3 5], ()⟩

/-- The triangle after its first iteration, in which regions 3 and 4 were
merged: the element queued for edge `(3, 5)` before the merge is now stale. -/
def demoStale : LoopState Unit (List QE) UniqueRowFeature_Label :=
  queue_body demoWorld (1/2) true false (start_queue demoWorld demoTriangle ⟨[]⟩)

/-- The demo world in which region 3 is a mitochondrion. -/
def demoMitoWorld : Collab Unit (List QE) UniqueRowFeature_Label :=
  demoCollab demoBody (fun l => l == 3) true (9/10)

/-- Every key (feature columns) of a row of `u1` is the key of a row of `u2`. -/
def keysSubset (u1 u2 : UniqueRowFeature_Label) : Prop :=
  ∀ row ∈ u1.rows, ∃ row' ∈ u2.rows, rowKey row' = rowKey row

/-- The demo process after one successful `initialize_priority_scheduler`. -/
def demoOnce : Globals Nat :=
  (initialize_priority_scheduler demoEnv "graph.json" 0 1 (1/2) (Globals.init 0)).2

/-- The demo process after a second successful `initialize_priority_scheduler`. -/
def demoTwice : Globals Nat :=
  (initialize_priority_scheduler demoEnv "graph.json" 0 1 (1/2) demoOnce).2

/-- A stack of four regions in a chain whose middle edge `(2, 3)` is preserved. -/
def demoMixed : BioStackController Unit :=
  ⟨[demoEdge 1 2, { demoEdge 2 3 with preserve := true }, demoEdge 3 4], ()⟩

/-! ## Stack session -/

/-- A gray-volume pointer (`VolumeGrayPtr`): `none` is the null pointer,
`some v` points to volume `v`. -/
abbrev VolumeGrayPtr := Option Nat

/-- Address of a `Stack` object. -/
abbrev StackPtr := Nat

/-- A `Stack` object as `StackSession.cpp` uses it: the gray volume read by
`get_grayvol` and written by `set_grayvol`, the three dimensions, and whether
`build_rag` has run on it. -/
structure Stack where
  grayvol : VolumeGrayPtr
  xsize : Nat
  ysize : Nat
  zsize : Nat
  rag_built : Bool
deriving DecidableEq, Repr

/-- One call of `serialize_stack`: the object as it was at the call and the two
file names. -/
structure Serialized where
  stack : Stack
  stack_name : String
  graph_name : String
deriving DecidableEq, Repr

/-- The collaborators of the session: `new Stack(name)` (`none` when it throws
a `std::runtime_error`), `create_directories` and `serialize_stack` (`false`
when they throw), and whether an `ErrMsg` is caught by a handler for
`std::runtime_error`. -/
structure SessionEnv where
  load_stack : String → Option Stack
  create_directories : String → Bool
  serialize_stack : Stack → String → String → Bool → Bool
  errmsg_is_runtime_error : Bool

/-- The fields of `StackSession` that `load_gt`, `export_session` and
`toggle_gt` use, the `Stack` objects by address, the next free address, and the
`serialize_stack` calls made so far.  The view fields that `toggle_gt` resets
(`active_labels`, `show_all`, the `*_changed` flags) are left out. -/
structure StackSession where
  stack : Option StackPtr
  gt_stack : Option StackPtr
  gt_mode : Bool
  saved_session_name : String
  objects : StackPtr → Stack
  next : StackPtr
  written : List Serialized

/-- The call `p->get_grayvol()`. -/
def StackSession.get_grayvol (s : StackSession) (p : StackPtr) : VolumeGrayPtr :=
  (s.objects p).grayvol

/-- The call `p->set_grayvol(v)`. -/
def StackSession.set_grayvol (s : StackSession) (p : StackPtr) (v : VolumeGrayPtr) :
    StackSession :=
  { s with objects := fun q => if q = p then { s.objects p with grayvol := v } else s.objects q }

/-- The function `StackSession::load_gt` (lines 53-76).  The new stack takes the
gray volume of `stack`; the old ground-truth stack, if any, is deleted.  The
function dereferences `stack` without a test; a null `stack` is outside what
the constructors allow and is reported here like a failed load. -/
def load_gt (env : SessionEnv) (gt_name : String) (build_rag : Bool) (s : StackSession) :
    Except ErrMsg Unit × StackSession :=
  match env.load_stack gt_name, s.stack with
  | none, _ => (.error ⟨gt_name ++ " not loaded"⟩, s)
  | some _, none => (.error ⟨gt_name ++ " not loaded"⟩, s)
  | some new_gt_stack, some st =>
    if new_gt_stack.xsize ≠ (s.objects st).xsize ∨ new_gt_stack.ysize ≠ (s.objects st).ysize ∨
        new_gt_stack.zsize ≠ (s.objects st).zsize then
      (.error (if env.errmsg_is_runtime_error then ⟨gt_name ++ " not loaded"⟩
        else ⟨"Dimensions of ground truth do not match label volume"⟩), s)
    else
      let built : Stack :=
        if build_rag then { new_gt_stack with rag_built := true } else new_gt_stack
      let shared : Stack := { built with grayvol := s.get_grayvol st }
      (.ok (), { s with gt_stack := some s.next,
                        objects := fun q => if q = s.next then shared else s.objects q,
                        next := s.next + 1 })

/-- The function `StackSession::toggle_gt` (lines 190-205): flip `gt_mode` and
swap the two stack pointers. -/
def toggle_gt (s : StackSession) : Except ErrMsg Unit × StackSession :=
  match s.gt_stack with
  | none => (.error ⟨"GT stack not defined"⟩, s)
  | some _ =>
    (.ok (), { s with gt_mode := !s.gt_mode, stack := s.gt_stack, gt_stack := s.stack })

/-- The function `StackSession::export_session` (lines 103-135).  Any exception
inside the `try` block becomes `ErrMsg(session_name)`.  In the inner block
`stack` is not null: it is `stack_exp` or `gtstack_exp`. -/
def export_session (env : SessionEnv) (session_name : String) (s : StackSession) :
    Except ErrMsg Unit × StackSession :=
  let stack_exp := if s.gt_mode then s.gt_stack else s.stack
  let gtstack_exp := if s.gt_mode then s.stack else s.gt_stack
  match stack_exp with
  | none => (.ok (), s)
  | some se =>
    if !env.create_directories session_name then (.error ⟨session_name⟩, s)
    else
      let stack_name := session_name ++ "/stack.h5"
      let graph_name := session_name ++ "/graph.json"
      if !env.serialize_stack (s.objects se) stack_name graph_name false then
        (.error ⟨session_name⟩, s)
      else
        let s1 : StackSession :=
          { s with written := s.written ++ [⟨s.objects se, stack_name, graph_name⟩] }
        match gtstack_exp with
        | none => (.ok (), { s1 with saved_session_name := session_name })
        | some ge =>
          let s2 := s1.set_grayvol ge none
          let gtstack_name := session_name ++ "/gtstack.h5"
          let gtgraph_name := session_name ++ "/gtgraph.json"
          if !env.serialize_stack (s2.objects ge) gtstack_name gtgraph_name false then
            (.error ⟨session_name⟩, s2)
          else
            let s3 : StackSession :=
              { s2 with written := s2.written ++ [⟨s2.objects ge, gtstack_name, gtgraph_name⟩] }
            let restored : VolumeGrayPtr :=
              match s3.stack with
              | some st => s3.get_grayvol st
              | none => none
            let s4 := s3.set_grayvol ge restored
            (.ok (), { s4 with saved_session_name := session_name })

/-- A demo world for sessions: every file loads as a 4 x 4 x 4 stack without
gray volume, and nothing fails on disk. -/
def demoSessionEnv : SessionEnv where
  load_stack _ := some ⟨none, 4, 4, 4, false⟩
  create_directories _ := true
  serialize_stack _ _ _ _ := true
  errmsg_is_runtime_error := false

/-- A session as the GUI constructor leaves it: one stack, at address `0`, with
gray volume `7`; no ground truth yet. -/
def demoSession : StackSession :=
  { stack := some 0, gt_stack := none, gt_mode := false, saved_session_name := "",
    objects := fun _ => ⟨some 7, 4, 4, 4, true⟩, next := 1, written := [] }

/-- The demo session after `load_gt("gt.h5", true)`: the ground-truth stack is
at address `1` and shares gray volume `7`. -/
def demoWithGt : StackSession := (load_gt demoSessionEnv "gt.h5" true demoSession).2

/-- The demo session after `load_gt` and then `toggle_gt`: `gt_mode` holds and
the two stack pointers are swapped. -/
def demoGtMode : StackSession := (toggle_gt demoWithGt).2

/-! ## Theorems: scheduler interface -/

theorem boundsIllegal_iff (min_val max_val start_val : ℚ) :
    boundsIllegal min_val max_val start_val = true ↔
      ¬ (0 ≤ min_val ∧ min_val ≤ start_val ∧ start_val ≤ max_val ∧ max_val ≤ 1) := by
  simp only [boundsIllegal, Bool.or_eq_true, decide_eq_true_eq]
  constructor
  · rintro ((((h | h) | h) | h) | h) ⟨h0, h1, h2, h3⟩ <;> linarith
  · intro h
    by_contra hc
    push_neg at hc
    obtain ⟨⟨⟨⟨h0, h3⟩, _⟩, h2⟩, h1⟩ := hc
    exact h ⟨h0, h1, h2, h3⟩

theorem boundsErr_ne_jsonErr : jsonErr ≠ boundsErr := by decide

/-- C1: for every world, file name, process state and bounds,
`initialize_priority_scheduler` throws the bounds error exactly when
`0 ≤ min_val ≤ start_val ≤ max_val ≤ 1` fails, and when it does throw, the
state is returned untouched: no file is read, no call is made. -/
theorem initialize_bounds_error_iff {H : Type} (env : Env H) (json_file : String)
    (min_val max_val start_val : ℚ) (g : Globals H) :
    ((initialize_priority_scheduler env json_file min_val max_val start_val g).1
        = .error boundsErr ↔
      ¬ (0 ≤ min_val ∧ min_val ≤ start_val ∧ start_val ≤ max_val ∧ max_val ≤ 1)) ∧
    ((initialize_priority_scheduler env json_file min_val max_val start_val g).1
        = .error boundsErr →
      initialize_priority_scheduler env json_file min_val max_val start_val g
        = (.error boundsErr, g)) := by
  by_cases hb : boundsIllegal min_val max_val start_val = true
  · have hi := (boundsIllegal_iff min_val max_val start_val).1 hb
    simp [initialize_priority_scheduler, hb, hi]
  · have hi : 0 ≤ min_val ∧ min_val ≤ start_val ∧ start_val ≤ max_val ∧ max_val ≤ 1 := by
      by_contra hc
      exact hb ((boundsIllegal_iff min_val max_val start_val).2 hc)
    have hb2 : boundsIllegal min_val max_val start_val = false := by simpa using hb
    have hne : (initialize_priority_scheduler env json_file min_val max_val start_val g).1
        ≠ .error boundsErr := by
      unfold initialize_priority_scheduler
      rw [hb2]
      simp only [Bool.false_eq_true, if_false]
      split
      · simp
      · split
        · simp [boundsErr_ne_jsonErr]
        · simp
    exact ⟨⟨fun h => absurd h hne, fun h => absurd hi h⟩, fun h => absurd h hne⟩

/-- C1, the example of the specification: `(min, max, start) = (-0.1, 1.0, 0.0)`
raises the bounds error and leaves the start state as it was. -/
theorem initialize_bounds_error_example :
    initialize_priority_scheduler demoEnv "graph.json" (-1/10) 1 0 (Globals.init 0)
      = (.error boundsErr, Globals.init 0) :=
  (initialize_bounds_error_iff demoEnv "graph.json" (-1/10) 1 0 (Globals.init 0)).2
    (((initialize_bounds_error_iff demoEnv "graph.json" (-1/10) 1 0 (Globals.init 0)).1).2
      (by norm_num))

/-- C2, as stated, fails for `export_priority_scheduler`: with a scheduler
installed the only call it makes is the graph writer on the file-scope `rag`;
no member function of the scheduler is called. -/
theorem export_makes_no_scheduler_call :
    demoReady.priority_scheduler = some 1 ∧
    (export_priority_scheduler demoEnv "out.json" demoReady).2.calls
      = [Call.create_jsonfile_from_rag (some 0) "out.json"] ∧
    ¬ ∃ c ∈ (export_priority_scheduler demoEnv "out.json" demoReady).2.calls,
        c.onScheduler = true := by
  simp [export_priority_scheduler, demoReady, Call.onScheduler]

/-- C2, amended: each of the seven entry points throws the not-initialized
error exactly when `priority_scheduler` is null, and then returns the state
untouched (no call, no change).  With a scheduler `p` installed the error is
not thrown; six entry points call the matching member function of `p` and
return its answer, while `export_priority_scheduler` calls the graph writer on
the file-scope `rag` and makes no call on the scheduler. -/
theorem not_initialized_guard {H : Type} (env : Env H) (g : Globals H) (json_file : String)
    (body_pair : Label × Label) (remove : Bool) :
    ((((export_priority_scheduler env json_file g).1 = .error notInitErr ↔
          g.priority_scheduler = none) ∧
      ((get_next_edge env g).1 = .error notInitErr ↔ g.priority_scheduler = none) ∧
      ((set_edge_result env body_pair remove g).1 = .error notInitErr ↔
          g.priority_scheduler = none) ∧
      ((get_estimated_num_remaining_edges env g).1 = .error notInitErr ↔
          g.priority_scheduler = none) ∧
      ((get_average_prediction_error env g).1 = .error notInitErr ↔
          g.priority_scheduler = none) ∧
      ((get_percent_prediction_correct env g).1 = .error notInitErr ↔
          g.priority_scheduler = none) ∧
      ((undo env g).1 = .error notInitErr ↔ g.priority_scheduler = none))) ∧
    (g.priority_scheduler = none →
      export_priority_scheduler env json_file g = (.error notInitErr, g) ∧
      get_next_edge env g = (.error notInitErr, g) ∧
      set_edge_result env body_pair remove g = (.error notInitErr, g) ∧
      get_estimated_num_remaining_edges env g = (.error notInitErr, g) ∧
      get_average_prediction_error env g = (.error notInitErr, g) ∧
      get_percent_prediction_correct env g = (.error notInitErr, g) ∧
      undo env g = (.error notInitErr, g)) ∧
    (∀ p, g.priority_scheduler = some p →
      export_priority_scheduler env json_file g
        = (.ok (env.create_jsonfile_from_rag g.heap g.rag json_file).2,
            { g with heap := (env.create_jsonfile_from_rag g.heap g.rag json_file).1,
                     calls := g.calls ++ [Call.create_jsonfile_from_rag g.rag json_file] }) ∧
      ((env.isFinished g.heap p).2 = true →
        get_next_edge env g
          = (.ok ⟨none, none⟩,
              { g with heap := (env.isFinished g.heap p).1,
                       calls := g.calls ++ [Call.isFinished p] })) ∧
      ((env.isFinished g.heap p).2 = false →
        get_next_edge env g
          = (.ok ⟨some (env.getTopEdge (env.isFinished g.heap p).1 p).2.1,
                  some (env.getTopEdge (env.isFinished g.heap p).1 p).2.2⟩,
              { g with heap := (env.getTopEdge (env.isFinished g.heap p).1 p).1,
                       calls := g.calls ++ [Call.isFinished p, Call.getTopEdge p] })) ∧
      set_edge_result env body_pair remove g
        = (.ok (), { g with heap := env.removeEdge g.heap p body_pair remove,
                            calls := g.calls ++ [Call.removeEdge p body_pair remove] }) ∧
      get_estimated_num_remaining_edges env g
        = (.ok (env.getNumRemaining g.heap p).2,
            { g with heap := (env.getNumRemaining g.heap p).1,
                     calls := g.calls ++ [Call.getNumRemaining p] }) ∧
      get_average_prediction_error env g
        = (.ok (env.getAveragePredictionError g.heap p).2,
            { g with heap := (env.getAveragePredictionError g.heap p).1,
                     calls := g.calls ++ [Call.getAveragePredictionError p] }) ∧
      get_percent_prediction_correct env g
        = (.ok (env.getPercentPredictionCorrect g.heap p).2,
            { g with heap := (env.getPercentPredictionCorrect g.heap p).1,
                     calls := g.calls ++ [Call.getPercentPredictionCorrect p] }) ∧
      undo env g
        = (.ok (env.undo g.heap p).2,
            { g with heap := (env.undo g.heap p).1, calls := g.calls ++ [Call.undo p] })) := by
  refine ⟨?_, ?_, ?_⟩
  · cases hp : g.priority_scheduler with
    | none =>
      simp [export_priority_scheduler, get_next_edge, set_edge_result,
        get_estimated_num_remaining_edges, get_average_prediction_error,
        get_percent_prediction_correct, undo, hp]
    | some p =>
      simp only [export_priority_scheduler, get_next_edge, set_edge_result,
        get_estimated_num_remaining_edges, get_average_prediction_error,
        get_percent_prediction_correct, undo, hp]
      refine ⟨by simp, ?_, by simp, by simp, by simp, by simp, by simp⟩
      by_cases hf : (env.isFinished g.heap p).2 = true <;> simp [hf]
  · intro hp
    simp [export_priority_scheduler, get_next_edge, set_edge_result,
      get_estimated_num_remaining_edges, get_average_prediction_error,
      get_percent_prediction_correct, undo, hp]
  · intro p hp
    simp only [export_priority_scheduler, get_next_edge, set_edge_result,
      get_estimated_num_remaining_edges, get_average_prediction_error,
      get_percent_prediction_correct, undo, hp]
    refine ⟨trivial, ?_, ?_, trivial, trivial, trivial, trivial, trivial⟩
    · intro hf
      simp [hf]
    · intro hf
      simp [hf]

theorem deleteSched_heap {H : Type} (g : Globals H) :
    (if g.priority_scheduler.isNone then deleteSched g g.priority_scheduler else g) = g := by
  cases hp : g.priority_scheduler <;> simp [deleteSched]

/-- C3: whenever `initialize_priority_scheduler` returns `true`, the graph file
was read to a RAG `ragp` and parsed to a `range` entry `json_range`; the calls
made are, in order, the graph reader, the JSON reader, one construction of a
scheduler on `ragp` and one `updatePriority` on the scheduler just constructed,
which is the one installed.  The constructor receives
`(range[0], range[1], range[0])` when `json_range` is non-empty, whatever the
caller passed, and the caller's `(min_val, max_val, start_val)` when it is
empty. -/
theorem initialize_constructs_scheduler {H : Type} (env : Env H) (json_file : String)
    (min_val max_val start_val : ℚ) (g : Globals H)
    (hok : (initialize_priority_scheduler env json_file min_val max_val start_val g).1
      = .ok true) :
    ∃ ragp json_range a b c,
      (env.create_rag_from_jsonfile g.heap json_file).2 = some ragp ∧
      env.json_parse (env.create_rag_from_jsonfile g.heap json_file).1 json_file
        = some json_range ∧
      (json_range ≠ [] →
        a = json_range.getD 0 0 ∧ b = json_range.getD 1 0 ∧ c = json_range.getD 0 0) ∧
      (json_range = [] → a = min_val ∧ b = max_val ∧ c = start_val) ∧
      (initialize_priority_scheduler env json_file min_val max_val start_val g).2.calls
        = g.calls ++ [Call.create_rag_from_jsonfile json_file, Call.json_parse json_file,
            Call.new_LocalEdgePriority ragp a b c,
            Call.updatePriority (env.new_LocalEdgePriority
              (env.create_rag_from_jsonfile g.heap json_file).1 ragp a b c).2] ∧
      (initialize_priority_scheduler env json_file min_val max_val start_val g).2.priority_scheduler
        = some (env.new_LocalEdgePriority
              (env.create_rag_from_jsonfile g.heap json_file).1 ragp a b c).2 ∧
      (initialize_priority_scheduler env json_file min_val max_val start_val g).2.heap
        = env.updatePriority
            (env.new_LocalEdgePriority
              (env.create_rag_from_jsonfile g.heap json_file).1 ragp a b c).1
            (env.new_LocalEdgePriority
              (env.create_rag_from_jsonfile g.heap json_file).1 ragp a b c).2 := by
  unfold initialize_priority_scheduler at hok ⊢
  rw [deleteSched_heap] at hok ⊢
  by_cases hb : boundsIllegal min_val max_val start_val = true
  · simp [hb] at hok
  · simp only [hb, Bool.false_eq_true, if_false] at hok ⊢
    cases hr : (env.create_rag_from_jsonfile g.heap json_file).2 with
    | none => simp [hr] at hok
    | some ragp =>
      simp only [hr] at hok ⊢
      cases hj : env.json_parse (env.create_rag_from_jsonfile g.heap json_file).1 json_file with
      | none => simp [hj] at hok
      | some json_range =>
        simp only [hj]
        refine ⟨ragp, json_range, (applyRange json_range min_val max_val start_val).1,
          (applyRange json_range min_val max_val start_val).2.1,
          (applyRange json_range min_val max_val start_val).2.2, rfl, rfl, ?_, ?_, ?_, rfl, rfl⟩
        · intro hne
          cases json_range with
          | nil => exact absurd rfl hne
          | cons x xs => simp [applyRange]
        · intro he
          subst he
          simp [applyRange]
        · simp

/-- C3 on the demo world: a file embedding `range = [1/4, 3/4]`, opened with
the legal caller bounds `(0, 1, 1/2)`, succeeds, and the scheduler is
constructed with `(1/4, 3/4, 1/4)` and then updated once. -/
theorem initialize_constructs_scheduler_witness :
    (initialize_priority_scheduler demoEnv "ranged.json" 0 1 (1/2) (Globals.init 0)).1
        = .ok true ∧
    (initialize_priority_scheduler demoEnv "ranged.json" 0 1 (1/2) (Globals.init 0)).2.calls
        = [Call.create_rag_from_jsonfile "ranged.json", Call.json_parse "ranged.json",
            Call.new_LocalEdgePriority 0 (1/4) (3/4) (1/4), Call.updatePriority 1] := by
  have hok : (initialize_priority_scheduler demoEnv "ranged.json" 0 1 (1/2)
      (Globals.init 0)).1 = .ok true := by
    norm_num [initialize_priority_scheduler, boundsIllegal, demoEnv, Globals.init, deleteSched]
  obtain ⟨ragp, json_range, a, b, c, h1, h2, h3, -, h5, -, -⟩ :=
    initialize_constructs_scheduler demoEnv "ranged.json" 0 1 (1/2) (Globals.init 0) hok
  have hr : ragp = 0 := by
    simpa [demoEnv, Globals.init] using h1.symm
  have hj : json_range = [1/4, 3/4] := by
    simpa [demoEnv, Globals.init] using h2.symm
  subst hr hj
  obtain ⟨ha, hb, hc⟩ := h3 (by simp)
  subst ha hb hc
  refine ⟨hok, ?_⟩
  rw [h5]
  simp [demoEnv, Globals.init]

/-! ## Theorems: training loops -/

section TrainingTheorems

variable {X Qt U : Type}

theorem queue_body_stale (env : Collab X Qt U) (threshold : ℚ) (accumulate_all use_mito : Bool)
    (s : LoopState X Qt U)
    (h : s.rag_edge env = none ∨ (s.tmpqe env).valid = false) :
    queue_body env threshold accumulate_all use_mito s = s.popped env := by
  unfold queue_body
  simp only [LoopState.rag_edge, LoopState.popped, LoopState.tmpqe] at h
  rcases h with h | h
  · simp only [h]; rfl
  · simp only [h]
    split <;> rfl

theorem lash_body_stale (env : Collab X Qt U) (use_mito : Bool) (s : LoopState X Qt U)
    (h : s.rag_edge env = none ∨ (s.tmpqe env).valid = false) :
    lash_body env use_mito s = s.popped env := by
  unfold lash_body
  simp only [LoopState.rag_edge, LoopState.popped, LoopState.tmpqe] at h
  rcases h with h | h
  · simp only [h]; rfl
  · simp only [h]
    split <;> rfl

/-- What one iteration of the queue loop does with a valid element whose edge
exists: the row block on the state right after the dequeue, then the merge when
the label is `-1`. -/
theorem queue_body_found (env : Collab X Qt U) (threshold : ℚ) (accumulate_all use_mito : Bool)
    (s : LoopState X Qt U) (rag_edge : RagEdge)
    (hfind : s.rag_edge env = some rag_edge) (hvalid : (s.tmpqe env).valid = true) :
    queue_body env threshold accumulate_all use_mito s =
      (if edge_label_of env (s.popped env).controller use_mito rag_edge.node1 rag_edge.node2 = -1
        then LoopState.mergeLabels env
          (queue_rows env threshold accumulate_all (s.popped env) rag_edge
            (edge_label_of env (s.popped env).controller use_mito rag_edge.node1 rag_edge.node2))
          rag_edge.node2 rag_edge.node1
        else queue_rows env threshold accumulate_all (s.popped env) rag_edge
          (edge_label_of env (s.popped env).controller use_mito
            rag_edge.node1 rag_edge.node2)) := by
  unfold queue_body
  simp only [LoopState.rag_edge, LoopState.popped, LoopState.tmpqe] at hfind hvalid
  simp only [hfind, hvalid, LoopState.popped]
  rfl

/-- What one iteration of the LASH loop does with a valid element whose edge
exists. -/
theorem lash_body_found (env : Collab X Qt U) (use_mito : Bool)
    (s : LoopState X Qt U) (rag_edge : RagEdge)
    (hfind : s.rag_edge env = some rag_edge) (hvalid : (s.tmpqe env).valid = true) :
    lash_body env use_mito s =
      (if edge_label_of env (s.popped env).controller use_mito rag_edge.node1 rag_edge.node2 = -1
        then LoopState.mergeLabels env
          (lash_rows env (s.popped env) rag_edge
            (edge_label_of env (s.popped env).controller use_mito rag_edge.node1 rag_edge.node2))
          rag_edge.node2 rag_edge.node1
        else lash_rows env (s.popped env) rag_edge
          (edge_label_of env (s.popped env).controller use_mito
            rag_edge.node1 rag_edge.node2)) := by
  unfold lash_body
  simp only [LoopState.rag_edge, LoopState.popped, LoopState.tmpqe] at hfind hvalid
  simp only [hfind, hvalid, LoopState.popped]
  rfl

/-- The row block of the queue loop touches neither graph, queue nor merge record. -/
theorem queue_rows_frame (env : Collab X Qt U) (threshold : ℚ) (accumulate_all : Bool)
    (s0 : LoopState X Qt U) (rag_edge : RagEdge) (edge_label : Int) :
    (queue_rows env threshold accumulate_all s0 rag_edge edge_label).controller = s0.controller ∧
    (queue_rows env threshold accumulate_all s0 rag_edge edge_label).Q = s0.Q ∧
    (queue_rows env threshold accumulate_all s0 rag_edge edge_label).merged = s0.merged := by
  unfold queue_rows
  by_cases h0 : edge_label = 0 <;> cases accumulate_all <;>
    cases env.is_trained s0.controller <;>
    by_cases hp : predl env s0.controller threshold
      (env.compute_all_features s0.controller rag_edge) = edge_label <;>
    simp [h0, hp, LoopState.insertRow]

/-- The row block of the LASH loop touches neither graph, queue nor merge record. -/
theorem lash_rows_frame (env : Collab X Qt U)
    (s0 : LoopState X Qt U) (rag_edge : RagEdge) (edge_label : Int) :
    (lash_rows env s0 rag_edge edge_label).controller = s0.controller ∧
    (lash_rows env s0 rag_edge edge_label).Q = s0.Q ∧
    (lash_rows env s0 rag_edge edge_label).merged = s0.merged := by
  unfold lash_rows
  by_cases h0 : edge_label = 0 <;> simp [h0, LoopState.insertRow]

/-- C4: in the queue loop and in the LASH loop, for a dequeued element that is
valid and whose edge `rag_edge` exists, with `L` the edge label after the
mitochondrion override: the iteration records a merge exactly when `L = -1`;
when `L = -1` the one merge is `merge_labels(label2, label1)` on the edge's two
labels, applied to the graph and queue as they were after the dequeue; when
`L ≠ -1` (so for `1` and `0`) no merge is recorded and graph and queue are as
they were after the dequeue.  Nothing here depends on `accumulate_all`, on
`threshold` or on `is_trained`. -/
theorem merge_iff_label_minus_one (env : Collab X Qt U) (threshold : ℚ)
    (accumulate_all use_mito : Bool) (s : LoopState X Qt U) (rag_edge : RagEdge)
    (hfind : s.rag_edge env = some rag_edge) (hvalid : (s.tmpqe env).valid = true) :
    (((queue_body env threshold accumulate_all use_mito s).merged ≠ s.merged ↔
        edge_label_of env (s.popped env).controller use_mito rag_edge.node1 rag_edge.node2 = -1) ∧
      ((lash_body env use_mito s).merged ≠ s.merged ↔
        edge_label_of env (s.popped env).controller use_mito rag_edge.node1 rag_edge.node2 = -1)) ∧
    (edge_label_of env (s.popped env).controller use_mito rag_edge.node1 rag_edge.node2 = -1 →
      ((queue_body env threshold accumulate_all use_mito s).merged
          = s.merged ++ [(rag_edge.node2, rag_edge.node1)] ∧
        ((queue_body env threshold accumulate_all use_mito s).controller,
            (queue_body env threshold accumulate_all use_mito s).Q)
          = env.merge_labels ((s.popped env).controller, (s.popped env).Q)
              rag_edge.node2 rag_edge.node1) ∧
      ((lash_body env use_mito s).merged = s.merged ++ [(rag_edge.node2, rag_edge.node1)] ∧
        ((lash_body env use_mito s).controller, (lash_body env use_mito s).Q)
          = env.merge_labels ((s.popped env).controller, (s.popped env).Q)
              rag_edge.node2 rag_edge.node1)) ∧
    (edge_label_of env (s.popped env).controller use_mito rag_edge.node1 rag_edge.node2 ≠ -1 →
      ((queue_body env threshold accumulate_all use_mito s).merged = s.merged ∧
        (queue_body env threshold accumulate_all use_mito s).controller
          = (s.popped env).controller ∧
        (queue_body env threshold accumulate_all use_mito s).Q = (s.popped env).Q) ∧
      ((lash_body env use_mito s).merged = s.merged ∧
        (lash_body env use_mito s).controller = (s.popped env).controller ∧
        (lash_body env use_mito s).Q = (s.popped env).Q)) := by
  rw [queue_body_found env threshold accumulate_all use_mito s rag_edge hfind hvalid,
    lash_body_found env use_mito s rag_edge hfind hvalid]
  obtain ⟨q1, q2, q3⟩ := queue_rows_frame env threshold accumulate_all (s.popped env) rag_edge
    (edge_label_of env (s.popped env).controller use_mito rag_edge.node1 rag_edge.node2)
  obtain ⟨l1, l2, l3⟩ := lash_rows_frame env (s.popped env) rag_edge
    (edge_label_of env (s.popped env).controller use_mito rag_edge.node1 rag_edge.node2)
  have hm : (s.popped env).merged = s.merged := rfl
  by_cases hL : edge_label_of env (s.popped env).controller use_mito
      rag_edge.node1 rag_edge.node2 = -1
  · simp only [hL] at q1 q2 q3 l1 l2 l3
    simp [hL, LoopState.mergeLabels, q1, q2, q3, l1, l2, l3, hm]
  · simp [hL, q1, q2, q3, l1, l2, l3, hm]

theorem mergeLabels_rows (env : Collab X Qt U) (s : LoopState X Qt U) (a b : Label) :
    (s.mergeLabels env a b).inserted = s.inserted ∧
    (s.mergeLabels env a b).all_featuresu = s.all_featuresu := ⟨rfl, rfl⟩

/-- With `accumulate_all` false and an untrained classifier one iteration of the
queue loop inserts nothing, whatever was dequeued. -/
theorem queue_body_untrained (env : Collab X Qt U) (threshold : ℚ) (use_mito : Bool)
    (hu : ∀ c, env.is_trained c = false) (s : LoopState X Qt U) :
    (queue_body env threshold false use_mito s).inserted = s.inserted ∧
    (queue_body env threshold false use_mito s).all_featuresu = s.all_featuresu := by
  cases hfind : s.rag_edge env with
  | none => rw [queue_body_stale env threshold false use_mito s (Or.inl hfind)]; exact ⟨rfl, rfl⟩
  | some rag_edge =>
    cases hvalid : (s.tmpqe env).valid with
    | false =>
      rw [queue_body_stale env threshold false use_mito s (Or.inr hvalid)]; exact ⟨rfl, rfl⟩
    | true =>
      rw [queue_body_found env threshold false use_mito s rag_edge hfind hvalid]
      have hr : ∀ L, queue_rows env threshold false (s.popped env) rag_edge L = s.popped env := by
        intro L
        unfold queue_rows
        simp [hu]
      simp only [hr]
      split <;> exact ⟨rfl, rfl⟩

theorem while_loop_untrained (env : Collab X Qt U) (threshold : ℚ) (use_mito : Bool)
    (hu : ∀ c, env.is_trained c = false) (fuel : Nat) :
    ∀ (s s' : LoopState X Qt U),
      while_loop env (queue_body env threshold false use_mito) fuel s = some s' →
      s'.inserted = s.inserted ∧ s'.all_featuresu = s.all_featuresu := by
  induction fuel with
  | zero =>
    intro s s' h
    simp only [while_loop] at h
    split at h
    · cases h; exact ⟨rfl, rfl⟩
    · cases h
  | succ n ih =>
    intro s s' h
    simp only [while_loop] at h
    split at h
    · cases h; exact ⟨rfl, rfl⟩
    · obtain ⟨h1, h2⟩ := ih _ _ h
      obtain ⟨b1, b2⟩ := queue_body_untrained env threshold use_mito hu s
      exact ⟨h1.trans b1, h2.trans b2⟩

/-- C5: in the queue loop, for a dequeued element that is valid and whose edge
`rag_edge` exists, let `c` be the controller after the dequeue, `feature` the
computed feature vector and `L` the edge label.  When `L ≠ 0` the row
`feature ++ [L]` is inserted exactly when `accumulate_all` holds, or
`accumulate_all` fails, the classifier is trained and the predicted class
differs from `L`; otherwise nothing is inserted.  When `L = 0` nothing is
inserted; with `accumulate_all` false and an untrained classifier nothing is
inserted, in this iteration and, when the classifier stays untrained, in the
whole loop. -/
theorem row_inserted_iff (env : Collab X Qt U) (threshold : ℚ)
    (accumulate_all use_mito : Bool) (s : LoopState X Qt U) (rag_edge : RagEdge)
    (c : BioStackController X) (feature : List ℚ) (L : Int)
    (hfind : s.rag_edge env = some rag_edge) (hvalid : (s.tmpqe env).valid = true)
    (hc : c = (s.popped env).controller)
    (hf : feature = env.compute_all_features c rag_edge)
    (hL : L = edge_label_of env c use_mito rag_edge.node1 rag_edge.node2) :
    (L ≠ 0 →
      (((queue_body env threshold accumulate_all use_mito s).inserted
            = s.inserted ++ [feature ++ [(L : ℚ)]] ↔
          (accumulate_all = true ∨
            (accumulate_all = false ∧ env.is_trained c = true ∧
              predl env c threshold feature ≠ L))) ∧
        ((accumulate_all = true ∨
            (accumulate_all = false ∧ env.is_trained c = true ∧
              predl env c threshold feature ≠ L)) →
          (queue_body env threshold accumulate_all use_mito s).all_featuresu
            = env.insert s.all_featuresu (feature ++ [(L : ℚ)])) ∧
        (¬ (accumulate_all = true ∨
            (accumulate_all = false ∧ env.is_trained c = true ∧
              predl env c threshold feature ≠ L)) →
          (queue_body env threshold accumulate_all use_mito s).inserted = s.inserted ∧
          (queue_body env threshold accumulate_all use_mito s).all_featuresu
            = s.all_featuresu))) ∧
    (L = 0 →
      (queue_body env threshold accumulate_all use_mito s).inserted = s.inserted ∧
      (queue_body env threshold accumulate_all use_mito s).all_featuresu = s.all_featuresu) ∧
    (accumulate_all = false → env.is_trained c = false →
      (queue_body env threshold accumulate_all use_mito s).inserted = s.inserted ∧
      (queue_body env threshold accumulate_all use_mito s).all_featuresu = s.all_featuresu) ∧
    ((∀ c', env.is_trained c' = false) → ∀ fuel s',
      while_loop env (queue_body env threshold false use_mito) fuel s = some s' →
      s'.inserted = s.inserted ∧ s'.all_featuresu = s.all_featuresu) := by
  have hins : (queue_body env threshold accumulate_all use_mito s).inserted
        = (queue_rows env threshold accumulate_all (s.popped env) rag_edge L).inserted ∧
      (queue_body env threshold accumulate_all use_mito s).all_featuresu
        = (queue_rows env threshold accumulate_all (s.popped env) rag_edge L).all_featuresu := by
    rw [queue_body_found env threshold accumulate_all use_mito s rag_edge hfind hvalid,
      hL, hc]
    split <;> exact ⟨rfl, rfl⟩
  rw [hins.1, hins.2]
  have hpi : (s.popped env).inserted = s.inserted := rfl
  have hpu : (s.popped env).all_featuresu = s.all_featuresu := rfl
  have hne : s.inserted ≠ s.inserted ++ [feature ++ [(L : ℚ)]] := by
    intro h
    have := congrArg List.length h
    simp at this
  refine ⟨?_, ?_, ?_, ?_⟩
  · intro h0
    unfold queue_rows
    rw [← hc, ← hf]
    cases accumulate_all <;> cases ht : env.is_trained c <;>
      by_cases hp : predl env c threshold feature = L <;>
      simp [h0, hp, LoopState.insertRow, hpi, hpu, hne]
  · intro h0
    unfold queue_rows
    simp [h0, hpi, hpu]
  · intro ha ht
    unfold queue_rows
    rw [← hc]
    simp [ha, ht, hpi, hpu]
  · intro hu fuel s' h
    exact while_loop_untrained env threshold use_mito hu fuel s s' h

/-- C7: in the queue loop and in the LASH loop, a dequeued element whose
endpoints have no edge, or whose `valid` flag is false, is skipped: the
iteration ends in the state right after the dequeue, with the Unique Row Set,
the insert record and the merge record as before; the outcome is the same for
every oracle (`find_edge_label`, `is_mito`), which is therefore not consulted;
and when the queue was not empty the loop goes on from that state. -/
theorem stale_entry_is_noop (env : Collab X Qt U) (threshold : ℚ)
    (accumulate_all use_mito : Bool) (s : LoopState X Qt U)
    (h : s.rag_edge env = none ∨ (s.tmpqe env).valid = false) :
    (queue_body env threshold accumulate_all use_mito s = s.popped env ∧
      lash_body env use_mito s = s.popped env) ∧
    ((s.popped env).all_featuresu = s.all_featuresu ∧
      (s.popped env).inserted = s.inserted ∧ (s.popped env).merged = s.merged) ∧
    (∀ (oracle : BioStackController X → Label → Label → Int)
        (mito : BioStackController X → Label → Bool),
      queue_body { env with find_edge_label := oracle, is_mito := mito }
          threshold accumulate_all use_mito s
        = queue_body env threshold accumulate_all use_mito s ∧
      lash_body { env with find_edge_label := oracle, is_mito := mito } use_mito s
        = lash_body env use_mito s) ∧
    (∀ fuel, env.is_empty s.Q = false →
      while_loop env (queue_body env threshold accumulate_all use_mito) (fuel + 1) s
        = while_loop env (queue_body env threshold accumulate_all use_mito) fuel
            (s.popped env) ∧
      while_loop env (lash_body env use_mito) (fuel + 1) s
        = while_loop env (lash_body env use_mito) fuel (s.popped env)) := by
  have hq := queue_body_stale env threshold accumulate_all use_mito s h
  have hl := lash_body_stale env use_mito s h
  refine ⟨⟨hq, hl⟩, ⟨rfl, rfl, rfl⟩, ?_, ?_⟩
  · intro oracle mito
    have h2 : LoopState.rag_edge { env with find_edge_label := oracle, is_mito := mito } s = none ∨
        (LoopState.tmpqe { env with find_edge_label := oracle, is_mito := mito } s).valid
          = false := h
    rw [queue_body_stale _ threshold accumulate_all use_mito s h2, lash_body_stale _ use_mito s h2,
      hq, hl]
    exact ⟨rfl, rfl⟩
  · intro fuel he
    simp [while_loop, he, hq, hl]

/-- C10: the edge label is `1` whenever `use_mito` holds and one of the two
labels is a mitochondrion, whatever the oracle says, and it is the oracle's
value when `use_mito` fails or neither label is a mitochondrion.  For such an
overridden edge, dequeued valid in the queue or LASH loop, no merge is recorded
and the graph stays as dequeued; the LASH loop inserts `feature ++ [1]`, and
the queue loop inserts it under its usual rule for a non-zero label; the flat
loop offers `feature ++ [1]` for it. -/
theorem mito_override_label (env : Collab X Qt U) (c : BioStackController X)
    (use_mito : Bool) (label1 label2 : Label) :
    ((use_mito = true ∧ (env.is_mito c label1 = true ∨ env.is_mito c label2 = true)) →
      edge_label_of env c use_mito label1 label2 = 1) ∧
    ((use_mito = false ∨ (env.is_mito c label1 = false ∧ env.is_mito c label2 = false)) →
      edge_label_of env c use_mito label1 label2 = env.find_edge_label c label1 label2) ∧
    (∀ (threshold : ℚ) (accumulate_all : Bool) (s : LoopState X Qt U) (rag_edge : RagEdge),
      s.rag_edge env = some rag_edge → (s.tmpqe env).valid = true →
      c = (s.popped env).controller → label1 = rag_edge.node1 → label2 = rag_edge.node2 →
      use_mito = true → (env.is_mito c label1 = true ∨ env.is_mito c label2 = true) →
      ((queue_body env threshold accumulate_all use_mito s).merged = s.merged ∧
        (queue_body env threshold accumulate_all use_mito s).controller = c ∧
        (lash_body env use_mito s).merged = s.merged ∧
        (lash_body env use_mito s).controller = c) ∧
      (lash_body env use_mito s).inserted
        = s.inserted ++ [env.compute_all_features c rag_edge ++ [1]] ∧
      ((accumulate_all = true ∨ (env.is_trained c = true ∧
            predl env c threshold (env.compute_all_features c rag_edge) ≠ 1)) →
        (queue_body env threshold accumulate_all use_mito s).inserted
          = s.inserted ++ [env.compute_all_features c rag_edge ++ [1]])) ∧
    (∀ (e : RagEdge) (rest : List RagEdge) (acc : U × List (List ℚ)),
      e.preserve = false → e.false_edge = false → label1 = e.node1 → label2 = e.node2 →
      use_mito = true → (env.is_mito c label1 = true ∨ env.is_mito c label2 = true) →
      flat_loop env c use_mito (e :: rest) acc
        = flat_loop env c use_mito rest
            (env.insert acc.1 (env.compute_all_features c e ++ [1]),
              acc.2 ++ [env.compute_all_features c e ++ [1]])) := by
  have hone : (use_mito = true ∧ (env.is_mito c label1 = true ∨ env.is_mito c label2 = true)) →
      edge_label_of env c use_mito label1 label2 = 1 := by
    rintro ⟨hm, h⟩
    unfold edge_label_of
    rcases h with h | h <;> simp [hm, h]
  refine ⟨hone, ?_, ?_, ?_⟩
  · intro h
    unfold edge_label_of
    rcases h with h | ⟨h1, h2⟩
    · simp [h]
    · simp [h1, h2]
  · intro threshold accumulate_all s rag_edge hfind hvalid hc h1 h2 hm hmito
    have hL := hone ⟨hm, hmito⟩
    rw [hc, h1, h2] at hL
    rw [queue_body_found env threshold accumulate_all use_mito s rag_edge hfind hvalid,
      lash_body_found env use_mito s rag_edge hfind hvalid, hL]
    obtain ⟨q1, _, q3⟩ := queue_rows_frame env threshold accumulate_all (s.popped env) rag_edge 1
    obtain ⟨l1, _, l3⟩ := lash_rows_frame env (s.popped env) rag_edge 1
    have hpi : (s.popped env).inserted = s.inserted := rfl
    have hpm : (s.popped env).merged = s.merged := rfl
    simp only [show ((1 : Int) = -1) = False by decide, if_false]
    refine ⟨⟨q3.trans hpm, by rw [q1, hc], l3.trans hpm, by rw [l1, hc]⟩, ?_, ?_⟩
    · unfold lash_rows
      simp [LoopState.insertRow, hpi, hc]
    · intro hcond
      unfold queue_rows
      rw [← hc]
      rcases hcond with ha | ⟨ht, hp⟩
      · simp [ha, LoopState.insertRow, hpi]
      · cases accumulate_all <;> simp [ht, hp, LoopState.insertRow, hpi]
  · intro e rest acc hp hf h1 h2 hm hmito
    have hL := hone ⟨hm, hmito⟩
    rw [h1, h2] at hL
    simp [flat_loop, hp, hf, hL]

theorem flat_loop_eq (env : Collab X Qt U) (c : BioStackController X) (use_mito : Bool)
    (edges : List RagEdge) :
    ∀ acc : U × List (List ℚ),
      flat_loop env c use_mito edges acc
        = ((offered_rows_spec env c use_mito edges).foldl env.insert acc.1,
            acc.2 ++ offered_rows_spec env c use_mito edges) := by
  induction edges with
  | nil => intro acc; simp [flat_loop, offered_rows_spec]
  | cons e rest ih =>
    intro acc
    unfold flat_loop
    by_cases hu : (!e.preserve && !e.false_edge) = true
    · by_cases h0 : edge_label_of env c use_mito e.node1 e.node2 = 0
      · simp only [hu, h0, if_true, ne_eq, not_true_eq_false, if_false]
        rw [ih]
        simp [offered_rows_spec, List.filter_cons, h0]
      · simp only [hu, h0, if_true, ne_eq, not_false_eq_true]
        rw [ih]
        simp only [Bool.and_eq_true, Bool.not_eq_true'] at hu
        simp [offered_rows_spec, List.filter_cons, h0, hu.1, hu.2]
    · have hu2 : (!e.preserve && !e.false_edge) = false := by simpa using hu
      simp only [hu2, Bool.false_eq_true, if_false]
      rw [ih]
      simp [offered_rows_spec, List.filter_cons, hu2]

/-- C6: in `learn_edge_classifier_flat`, with `c` the controller after
preprocessing, the rows passed to `insert` are, in edge order,
`compute_all_features(e) ++ [label(e)]` for exactly the edges `e` of `c` with
`preserve = false`, `false_edge = false` and a non-zero label; the Unique Row
Set is the caller's with those rows inserted in that order; every such row ends
in its non-zero label and comes from an unfiltered edge; no merge is made, and
`learn` is called on the controller as it was after preprocessing. -/
theorem flat_offers_exactly (env : Collab X Qt U) (controller : BioStackController X)
    (threshold : ℚ) (all_featuresu : U) (all_labels : List Int) (use_mito : Bool) :
    (learn_edge_classifier_flat env controller threshold all_featuresu all_labels use_mito).inserted
      = offered_rows_spec env (preprocess_stack env controller use_mito) use_mito
          (preprocess_stack env controller use_mito).rag ∧
    (learn_edge_classifier_flat env controller threshold all_featuresu all_labels
        use_mito).all_featuresu
      = (offered_rows_spec env (preprocess_stack env controller use_mito) use_mito
          (preprocess_stack env controller use_mito).rag).foldl env.insert all_featuresu ∧
    (∀ row ∈ (learn_edge_classifier_flat env controller threshold all_featuresu all_labels
        use_mito).inserted,
      ∃ e ∈ (preprocess_stack env controller use_mito).rag,
        e.preserve = false ∧ e.false_edge = false ∧
        edge_label_of env (preprocess_stack env controller use_mito) use_mito e.node1 e.node2 ≠ 0 ∧
        row = env.compute_all_features (preprocess_stack env controller use_mito) e ++
          [((edge_label_of env (preprocess_stack env controller use_mito) use_mito
              e.node1 e.node2 : Int) : ℚ)] ∧
        row.getLast? = some ((edge_label_of env (preprocess_stack env controller use_mito)
          use_mito e.node1 e.node2 : Int) : ℚ) ∧
        row.getLast? ≠ some 0) ∧
    (learn_edge_classifier_flat env controller threshold all_featuresu all_labels use_mito).merged
      = [] ∧
    (learn_edge_classifier_flat env controller threshold all_featuresu all_labels
        use_mito).controller
      = env.learn (preprocess_stack env controller use_mito)
          (env.get_feature_label
            ((offered_rows_spec env (preprocess_stack env controller use_mito) use_mito
              (preprocess_stack env controller use_mito).rag).foldl env.insert all_featuresu)
            all_labels).1
          (env.get_feature_label
            ((offered_rows_spec env (preprocess_stack env controller use_mito) use_mito
              (preprocess_stack env controller use_mito).rag).foldl env.insert all_featuresu)
            all_labels).2 := by
  have hfl := flat_loop_eq env (preprocess_stack env controller use_mito) use_mito
    (preprocess_stack env controller use_mito).rag (all_featuresu, [])
  refine ⟨?_, ?_, ?_, rfl, ?_⟩
  · simp [learn_edge_classifier_flat, finish_learning, hfl]
  · simp [learn_edge_classifier_flat, finish_learning, hfl]
  · intro row hrow
    have hrow2 : row ∈ offered_rows_spec env (preprocess_stack env controller use_mito)
        use_mito (preprocess_stack env controller use_mito).rag := by
      simpa [learn_edge_classifier_flat, finish_learning, hfl] using hrow
    simp only [offered_rows_spec, List.mem_map, List.mem_filter, Bool.and_eq_true,
      Bool.not_eq_true', decide_eq_true_eq] at hrow2
    obtain ⟨e, ⟨he, ⟨hp, hf⟩, h0⟩, hr⟩ := hrow2
    refine ⟨e, he, hp, hf, h0, hr.symm, ?_, ?_⟩
    · rw [← hr]; simp
    · rw [← hr]
      simp [h0]
  · simp [learn_edge_classifier_flat, finish_learning, hfl]

theorem lash_body_eq_queue_body (env : Collab X Qt U) (threshold : ℚ) (use_mito : Bool) :
    lash_body env use_mito = queue_body env threshold true use_mito := by
  funext s
  unfold lash_body queue_body lash_rows queue_rows
  simp

/-- C8, as stated, fails: `learn_edge_classifier_lash` clears the Unique Row Set
it is given, `learn_edge_classifier_queue` does not.  On the demo stack, started
with the one row `[7, 1]` in the set, LASH ends with `[[1/2, 1]]` and the queue
mode with `accumulate_all = true` ends with `[[7, 1], [1/2, 1]]`. -/
theorem lash_differs_on_nonempty_set :
    (learn_edge_classifier_lash demoWorld 5 demoStack (1/2) ⟨[[7, 1]]⟩ [] false).map
        (fun r => r.all_featuresu) = some ⟨[[1/2, 1]]⟩ ∧
    (learn_edge_classifier_queue demoWorld 5 demoStack (1/2) ⟨[[7, 1]]⟩ [] true false).map
        (fun r => r.all_featuresu) = some ⟨[[7, 1], [1/2, 1]]⟩ ∧
    learn_edge_classifier_lash demoWorld 5 demoStack (1/2) ⟨[[7, 1]]⟩ [] false
      ≠ learn_edge_classifier_queue demoWorld 5 demoStack (1/2) ⟨[[7, 1]]⟩ [] true false := by
  have h1 : (learn_edge_classifier_lash demoWorld 5 demoStack (1/2) ⟨[[7, 1]]⟩ [] false).map
      (fun r => r.all_featuresu) = some ⟨[[1/2, 1]]⟩ := by
    norm_num [learn_edge_classifier_lash, while_loop, lash_body, lash_rows, start_queue,
      seed_loop, demoWorld, demoCollab, demoStack, demoEdge, preprocess_stack, finish_learning,
      demoExtract, demoMin, demoProb, demoMerge, demoJoinEdge, demoInvalidate, edge_label_of,
      demoBody, LoopState.insertRow, LoopState.mergeLabels, UniqueRowFeature_Label.insert,
      UniqueRowFeature_Label.clear, RagEdge.joins, QE.joins, rowKey]
  have h2 : (learn_edge_classifier_queue demoWorld 5 demoStack (1/2) ⟨[[7, 1]]⟩ [] true
      false).map (fun r => r.all_featuresu) = some ⟨[[7, 1], [1/2, 1]]⟩ := by
    norm_num [learn_edge_classifier_queue, while_loop, queue_body, queue_rows, start_queue,
      seed_loop, demoWorld, demoCollab, demoStack, demoEdge, preprocess_stack, finish_learning,
      demoExtract, demoMin, demoProb, demoMerge, demoJoinEdge, demoInvalidate, edge_label_of,
      demoBody, LoopState.insertRow, LoopState.mergeLabels, UniqueRowFeature_Label.insert,
      RagEdge.joins, QE.joins, rowKey]
  refine ⟨h1, h2, ?_⟩
  intro h
  rw [h, h2] at h1
  simp at h1

/-- C8, amended: for every world, controller, threshold, `use_mito` flag,
Unique Row Set and label vector passed in, and every bound on the number of
iterations, `learn_edge_classifier_lash` gives exactly what
`learn_edge_classifier_queue` with `accumulate_all = true` gives when it is
called on the cleared Unique Row Set and an empty label vector: the same
merges, the same rows, the same extracted features and labels, the same
`learn` call. -/
theorem lash_eq_queue_on_cleared (env : Collab X Qt U) (fuel : Nat)
    (controller : BioStackController X) (threshold : ℚ) (all_featuresu : U)
    (all_labels : List Int) (use_mito : Bool) :
    learn_edge_classifier_lash env fuel controller threshold all_featuresu all_labels use_mito
      = learn_edge_classifier_queue env fuel controller threshold (env.clear all_featuresu) []
          true use_mito := by
  unfold learn_edge_classifier_lash learn_edge_classifier_queue
  rw [lash_body_eq_queue_body env threshold use_mito]

/-! ### Hard-example mode against accumulate-all mode -/

theorem keysSubset_refl (u : UniqueRowFeature_Label) : keysSubset u u :=
  fun row h => ⟨row, h, rfl⟩

theorem mem_insert_of_mem (u : UniqueRowFeature_Label) (row r : List ℚ) (h : r ∈ u.rows) :
    r ∈ (u.insert row).rows := by
  unfold UniqueRowFeature_Label.insert
  split
  · exact h
  · simp [h]

theorem key_mem_insert (u : UniqueRowFeature_Label) (row : List ℚ) :
    ∃ r ∈ (u.insert row).rows, rowKey r = rowKey row := by
  unfold UniqueRowFeature_Label.insert
  split
  · rename_i h
    simp only [List.any_eq_true, decide_eq_true_eq] at h
    exact h
  · exact ⟨row, by simp, rfl⟩

theorem mem_of_mem_insert (u : UniqueRowFeature_Label) (row r : List ℚ)
    (h : r ∈ (u.insert row).rows) : r ∈ u.rows ∨ r = row := by
  unfold UniqueRowFeature_Label.insert at h
  split at h
  · exact Or.inl h
  · simpa using h

theorem keysSubset_insert_right (u1 u2 : UniqueRowFeature_Label) (row : List ℚ)
    (h : keysSubset u1 u2) : keysSubset u1 (u2.insert row) := by
  intro r hr
  obtain ⟨r2, h2, hk⟩ := h r hr
  exact ⟨r2, mem_insert_of_mem u2 row r2 h2, hk⟩

theorem keysSubset_insert_both (u1 u2 : UniqueRowFeature_Label) (row : List ℚ)
    (h : keysSubset u1 u2) : keysSubset (u1.insert row) (u2.insert row) := by
  intro r hr
  rcases mem_of_mem_insert u1 row r hr with h1 | h1
  · exact keysSubset_insert_right u1 u2 row h r h1
  · subst h1
    exact key_mem_insert u2 r

/-- The row block in hard-example mode inserts a subset of what the row block in
accumulate-all mode inserts. -/
theorem queue_rows_sim (env : Collab X Qt UniqueRowFeature_Label)
    (hins : env.insert = UniqueRowFeature_Label.insert) (threshold : ℚ)
    (s1 s2 : LoopState X Qt UniqueRowFeature_Label) (rag_edge : RagEdge) (L : Int)
    (hc : s1.controller = s2.controller)
    (hk : keysSubset s1.all_featuresu s2.all_featuresu) :
    keysSubset (queue_rows env threshold false s1 rag_edge L).all_featuresu
      (queue_rows env threshold true s2 rag_edge L).all_featuresu := by
  unfold queue_rows
  by_cases h0 : L = 0
  · simpa [h0] using hk
  · simp only [ne_eq, h0, not_false_eq_true, if_true, Bool.false_eq_true, if_false,
      LoopState.insertRow, hins, hc]
    split
    · split
      · exact keysSubset_insert_both _ _ _ hk
      · exact keysSubset_insert_right _ _ _ hk
    · exact keysSubset_insert_right _ _ _ hk

/-- One iteration in hard-example mode and one in accumulate-all mode, started
on the same graph, queue and merge record, end on the same graph, queue and
merge record, and keep the keys of the first row set inside the second. -/
theorem queue_body_sim (env : Collab X Qt UniqueRowFeature_Label)
    (hins : env.insert = UniqueRowFeature_Label.insert) (threshold : ℚ) (use_mito : Bool)
    (s1 s2 : LoopState X Qt UniqueRowFeature_Label)
    (hc : s1.controller = s2.controller) (hq : s1.Q = s2.Q) (hm : s1.merged = s2.merged)
    (hk : keysSubset s1.all_featuresu s2.all_featuresu) :
    (queue_body env threshold false use_mito s1).controller
        = (queue_body env threshold true use_mito s2).controller ∧
    (queue_body env threshold false use_mito s1).Q
        = (queue_body env threshold true use_mito s2).Q ∧
    (queue_body env threshold false use_mito s1).merged
        = (queue_body env threshold true use_mito s2).merged ∧
    keysSubset (queue_body env threshold false use_mito s1).all_featuresu
      (queue_body env threshold true use_mito s2).all_featuresu := by
  have ht : s1.tmpqe env = s2.tmpqe env := by simp [LoopState.tmpqe, hc, hq]
  have hpc : (s1.popped env).controller = (s2.popped env).controller := by
    simp [LoopState.popped, hc, hq]
  have hpq : (s1.popped env).Q = (s2.popped env).Q := by simp [LoopState.popped, hc, hq]
  have hpm : (s1.popped env).merged = (s2.popped env).merged := hm
  have hpk : keysSubset (s1.popped env).all_featuresu (s2.popped env).all_featuresu := hk
  have hre : s1.rag_edge env = s2.rag_edge env := by
    simp [LoopState.rag_edge, hpc, ht]
  by_cases hstale : s2.rag_edge env = none ∨ (s2.tmpqe env).valid = false
  · have hstale1 : s1.rag_edge env = none ∨ (s1.tmpqe env).valid = false := by
      rw [hre, ht]; exact hstale
    rw [queue_body_stale env threshold false use_mito s1 hstale1,
      queue_body_stale env threshold true use_mito s2 hstale]
    exact ⟨hpc, hpq, hpm, hpk⟩
  · push_neg at hstale
    obtain ⟨hsome, hv⟩ := hstale
    obtain ⟨rag_edge, hfind⟩ := Option.ne_none_iff_exists'.1 hsome
    have hvalid : (s2.tmpqe env).valid = true := by simpa using hv
    rw [queue_body_found env threshold false use_mito s1 rag_edge (hre.trans hfind)
        (ht ▸ hvalid),
      queue_body_found env threshold true use_mito s2 rag_edge hfind hvalid, hpc]
    obtain ⟨a1, a2, a3⟩ := queue_rows_frame env threshold false (s1.popped env) rag_edge
      (edge_label_of env (s2.popped env).controller use_mito rag_edge.node1 rag_edge.node2)
    obtain ⟨b1, b2, b3⟩ := queue_rows_frame env threshold true (s2.popped env) rag_edge
      (edge_label_of env (s2.popped env).controller use_mito rag_edge.node1 rag_edge.node2)
    have hrk := queue_rows_sim env hins threshold (s1.popped env) (s2.popped env) rag_edge
      (edge_label_of env (s2.popped env).controller use_mito rag_edge.node1 rag_edge.node2)
      hpc hpk
    split
    · refine ⟨?_, ?_, ?_, hrk⟩
      · simp [LoopState.mergeLabels, a1, a2, b1, b2, hpc, hpq]
      · simp [LoopState.mergeLabels, a1, a2, b1, b2, hpc, hpq]
      · simp [LoopState.mergeLabels, a3, b3, hpm]
    · exact ⟨by rw [a1, b1, hpc], by rw [a2, b2, hpq], by rw [a3, b3, hpm], hrk⟩

theorem while_loop_sim (env : Collab X Qt UniqueRowFeature_Label)
    (hins : env.insert = UniqueRowFeature_Label.insert) (threshold : ℚ) (use_mito : Bool)
    (fuel : Nat) :
    ∀ (s1 s2 t1 : LoopState X Qt UniqueRowFeature_Label),
      s1.controller = s2.controller → s1.Q = s2.Q → s1.merged = s2.merged →
      keysSubset s1.all_featuresu s2.all_featuresu →
      while_loop env (queue_body env threshold false use_mito) fuel s1 = some t1 →
      ∃ t2, while_loop env (queue_body env threshold true use_mito) fuel s2 = some t2 ∧
        t1.controller = t2.controller ∧ t1.merged = t2.merged ∧
        keysSubset t1.all_featuresu t2.all_featuresu := by
  induction fuel with
  | zero =>
    intro s1 s2 t1 hc hq hm hk h
    simp only [while_loop] at h ⊢
    rw [← hq]
    split at h
    · rename_i he
      cases h
      exact ⟨s2, by simp [he], hc, hm, hk⟩
    · cases h
  | succ n ih =>
    intro s1 s2 t1 hc hq hm hk h
    simp only [while_loop] at h ⊢
    rw [← hq]
    split at h
    · rename_i he
      cases h
      exact ⟨s2, by simp [he], hc, hm, hk⟩
    · rename_i he
      obtain ⟨c1, c2, c3, c4⟩ := queue_body_sim env hins threshold use_mito s1 s2 hc hq hm hk
      simp only [he, if_false]
      exact ih _ _ t1 c1 c2 c3 c4 h

/-- C9, as stated, fails under first-seen-label semantics.  On the demo stack
the edges `(1, 2)` (label `1`, predicted `1`) and `(3, 4)` (label `-1`,
predicted `1`) have the same feature vector `[1/2]`.  Hard-example mode keeps
only the misclassified row `[1/2, -1]`; accumulate-all mode sees `[1/2, 1]`
first and discards `[1/2, -1]` as a duplicate key.  So `[1/2, -1]` is in the
first result and not in the second. -/
theorem hard_example_row_not_in_accumulate_all :
    (learn_edge_classifier_queue demoWorld 5 demoStack (1/2) ⟨[]⟩ [] false false).map
        (fun r => r.all_featuresu) = some ⟨[[1/2, -1]]⟩ ∧
    (learn_edge_classifier_queue demoWorld 5 demoStack (1/2) ⟨[]⟩ [] true false).map
        (fun r => r.all_featuresu) = some ⟨[[1/2, 1]]⟩ ∧
    ([1/2, -1] : List ℚ) ∈ ([[1/2, -1]] : List (List ℚ)) ∧
    ([1/2, -1] : List ℚ) ∉ ([[1/2, 1]] : List (List ℚ)) := by
  refine ⟨?_, ?_, by simp, by norm_num⟩
  · norm_num [learn_edge_classifier_queue, while_loop, queue_body, queue_rows, predl,
      start_queue, seed_loop, demoWorld, demoCollab, demoStack, demoEdge, preprocess_stack,
      finish_learning, demoExtract, demoMin, demoProb, demoMerge, demoJoinEdge,
      demoInvalidate, edge_label_of, demoBody, LoopState.insertRow, LoopState.mergeLabels,
      UniqueRowFeature_Label.insert, RagEdge.joins, QE.joins, rowKey]
  · norm_num [learn_edge_classifier_queue, while_loop, queue_body, queue_rows, predl,
      start_queue, seed_loop, demoWorld, demoCollab, demoStack, demoEdge, preprocess_stack,
      finish_learning, demoExtract, demoMin, demoProb, demoMerge, demoJoinEdge,
      demoInvalidate, edge_label_of, demoBody, LoopState.insertRow, LoopState.mergeLabels,
      UniqueRowFeature_Label.insert, RagEdge.joins, QE.joins, rowKey]

/-- C9, amended: with the Unique Row Set keyed by the non-label columns and
keeping the first-seen label, and under identical inputs, whenever
`learn_edge_classifier_queue` with `accumulate_all = false` returns, the run
with `accumulate_all = true` returns within the same number of iterations, has
made the same merges, and every row of the first result has its feature columns
(its key) among the rows of the second result; the label column may differ. -/
theorem hard_example_keys_in_accumulate_all (env : Collab X Qt UniqueRowFeature_Label)
    (hins : env.insert = UniqueRowFeature_Label.insert) (fuel : Nat)
    (controller : BioStackController X) (threshold : ℚ)
    (all_featuresu : UniqueRowFeature_Label) (all_labels : List Int) (use_mito : Bool)
    (r1 : LearnResult X UniqueRowFeature_Label)
    (h1 : learn_edge_classifier_queue env fuel controller threshold all_featuresu all_labels
      false use_mito = some r1) :
    ∃ r2, learn_edge_classifier_queue env fuel controller threshold all_featuresu all_labels
        true use_mito = some r2 ∧
      r2.merged = r1.merged ∧
      ∀ row ∈ r1.all_featuresu.rows, ∃ row' ∈ r2.all_featuresu.rows,
        rowKey row' = rowKey row := by
  unfold learn_edge_classifier_queue at h1 ⊢
  cases hw : while_loop env (queue_body env threshold false use_mito) fuel
      (start_queue env (preprocess_stack env controller use_mito) all_featuresu) with
  | none => simp [hw] at h1
  | some t1 =>
    obtain ⟨t2, hw2, _, hm, hk⟩ := while_loop_sim env hins threshold use_mito fuel
      (start_queue env (preprocess_stack env controller use_mito) all_featuresu)
      (start_queue env (preprocess_stack env controller use_mito) all_featuresu) t1
      rfl rfl rfl (keysSubset_refl _) hw
    simp only [hw, Option.some.injEq] at h1
    subst h1
    refine ⟨finish_learning env t2.controller t2.all_featuresu all_labels t2.inserted t2.merged,
      by simp only [hw2], ?_, ?_⟩
    · simp [finish_learning, hm]
    · exact hk

/-! ### The theorems at concrete inputs -/

/-- C4 on the demo stack: the second element dequeued is the valid element of
edge `(3, 4)`, whose label is `-1`, and the iteration merges region 4 into
region 3. -/
theorem merge_iff_label_minus_one_witness :
    demoSecond.rag_edge demoWorld
        = some ⟨3, 4, false, false, 7/10, some 1⟩ ∧
    (demoSecond.tmpqe demoWorld).valid = true ∧
    edge_label_of demoWorld (demoSecond.popped demoWorld).controller false 3 4 = -1 ∧
    (queue_body demoWorld (1/2) false false demoSecond).merged
        = demoSecond.merged ++ [(4, 3)] := by
  have hfind : demoSecond.rag_edge demoWorld = some ⟨3, 4, false, false, 7/10, some 1⟩ := by
    norm_num [learn_edge_classifier_queue, while_loop, queue_body, queue_rows, predl,
      start_queue, seed_loop, demoWorld, demoCollab, demoStack, demoTriangle, demoEdge,
      preprocess_stack, finish_learning, demoExtract, demoMin, demoProb, demoMerge,
      demoJoinEdge, demoInvalidate, edge_label_of, demoBody, LoopState.insertRow,
      LoopState.mergeLabels, LoopState.tmpqe, LoopState.popped, LoopState.rag_edge,
      demoQueued, demoSecond, demoStale, UniqueRowFeature_Label.insert, RagEdge.joins,
      QE.joins, rowKey]
  have hvalid : (demoSecond.tmpqe demoWorld).valid = true := by
    norm_num [learn_edge_classifier_queue, while_loop, queue_body, queue_rows, predl,
      start_queue, seed_loop, demoWorld, demoCollab, demoStack, demoTriangle, demoEdge,
      preprocess_stack, finish_learning, demoExtract, demoMin, demoProb, demoMerge,
      demoJoinEdge, demoInvalidate, edge_label_of, demoBody, LoopState.insertRow,
      LoopState.mergeLabels, LoopState.tmpqe, LoopState.popped, LoopState.rag_edge,
      demoQueued, demoSecond, demoStale, UniqueRowFeature_Label.insert, RagEdge.joins,
      QE.joins, rowKey]
  have hL : edge_label_of demoWorld (demoSecond.popped demoWorld).controller false 3 4 = -1 := by
    norm_num [learn_edge_classifier_queue, while_loop, queue_body, queue_rows, predl,
      start_queue, seed_loop, demoWorld, demoCollab, demoStack, demoTriangle, demoEdge,
      preprocess_stack, finish_learning, demoExtract, demoMin, demoProb, demoMerge,
      demoJoinEdge, demoInvalidate, edge_label_of, demoBody, LoopState.insertRow,
      LoopState.mergeLabels, LoopState.tmpqe, LoopState.popped, LoopState.rag_edge,
      demoQueued, demoSecond, demoStale, UniqueRowFeature_Label.insert, RagEdge.joins,
      QE.joins, rowKey]
  exact ⟨hfind, hvalid, hL,
    ((merge_iff_label_minus_one demoWorld (1/2) false false demoSecond
      ⟨3, 4, false, false, 7/10, some 1⟩ hfind hvalid).2.1 hL).1.1⟩

/-- C5 on the demo stack: with `accumulate_all` false, a trained classifier
that answers `9/10` and the threshold `19/20`, edge `(1, 2)` with label `1` is
predicted `-1`, so its row is inserted. -/
theorem row_inserted_iff_witness :
    demoQueued.rag_edge demoWorld = some ⟨1, 2, false, false, 3/10, some 0⟩ ∧
    (demoQueued.tmpqe demoWorld).valid = true ∧
    (queue_body demoWorld (19/20) false false demoQueued).inserted
        = demoQueued.inserted ++ [[1/2] ++ [((1 : Int) : ℚ)]] := by
  have hfind : demoQueued.rag_edge demoWorld = some ⟨1, 2, false, false, 3/10, some 0⟩ := by
    norm_num [learn_edge_classifier_queue, while_loop, queue_body, queue_rows, predl,
      start_queue, seed_loop, demoWorld, demoCollab, demoStack, demoTriangle, demoEdge,
      preprocess_stack, finish_learning, demoExtract, demoMin, demoProb, demoMerge,
      demoJoinEdge, demoInvalidate, edge_label_of, demoBody, LoopState.insertRow,
      LoopState.mergeLabels, LoopState.tmpqe, LoopState.popped, LoopState.rag_edge,
      demoQueued, demoSecond, demoStale, UniqueRowFeature_Label.insert, RagEdge.joins,
      QE.joins, rowKey]
  have hvalid : (demoQueued.tmpqe demoWorld).valid = true := by
    norm_num [learn_edge_classifier_queue, while_loop, queue_body, queue_rows, predl,
      start_queue, seed_loop, demoWorld, demoCollab, demoStack, demoTriangle, demoEdge,
      preprocess_stack, finish_learning, demoExtract, demoMin, demoProb, demoMerge,
      demoJoinEdge, demoInvalidate, edge_label_of, demoBody, LoopState.insertRow,
      LoopState.mergeLabels, LoopState.tmpqe, LoopState.popped, LoopState.rag_edge,
      demoQueued, demoSecond, demoStale, UniqueRowFeature_Label.insert, RagEdge.joins,
      QE.joins, rowKey]
  have hL : (1 : Int) = edge_label_of demoWorld (demoQueued.popped demoWorld).controller false
      1 2 := by
    norm_num [learn_edge_classifier_queue, while_loop, queue_body, queue_rows, predl,
      start_queue, seed_loop, demoWorld, demoCollab, demoStack, demoTriangle, demoEdge,
      preprocess_stack, finish_learning, demoExtract, demoMin, demoProb, demoMerge,
      demoJoinEdge, demoInvalidate, edge_label_of, demoBody, LoopState.insertRow,
      LoopState.mergeLabels, LoopState.tmpqe, LoopState.popped, LoopState.rag_edge,
      demoQueued, demoSecond, demoStale, UniqueRowFeature_Label.insert, RagEdge.joins,
      QE.joins, rowKey]
  have hp : predl demoWorld (demoQueued.popped demoWorld).controller (19/20) [1/2] ≠ 1 := by
    norm_num [learn_edge_classifier_queue, while_loop, queue_body, queue_rows, predl,
      start_queue, seed_loop, demoWorld, demoCollab, demoStack, demoTriangle, demoEdge,
      preprocess_stack, finish_learning, demoExtract, demoMin, demoProb, demoMerge,
      demoJoinEdge, demoInvalidate, edge_label_of, demoBody, LoopState.insertRow,
      LoopState.mergeLabels, LoopState.tmpqe, LoopState.popped, LoopState.rag_edge,
      demoQueued, demoSecond, demoStale, UniqueRowFeature_Label.insert, RagEdge.joins,
      QE.joins, rowKey]
  exact ⟨hfind, hvalid,
    (((row_inserted_iff demoWorld (19/20) false false demoQueued
      ⟨1, 2, false, false, 3/10, some 0⟩ (demoQueued.popped demoWorld).controller [1/2] 1
      hfind hvalid rfl rfl hL).1 (by decide)).1).2 (Or.inr ⟨rfl, rfl, hp⟩)⟩

/-- C7 on the triangle: after regions 3 and 4 were merged, the element dequeued
next is the stale one of edge `(3, 5)`, and the iteration only dequeues it. -/
theorem stale_entry_is_noop_witness :
    (demoStale.tmpqe demoWorld).valid = false ∧
    queue_body demoWorld (1/2) true false demoStale = demoStale.popped demoWorld ∧
    lash_body demoWorld false demoStale = demoStale.popped demoWorld := by
  have hv : (demoStale.tmpqe demoWorld).valid = false := by
    norm_num [learn_edge_classifier_queue, while_loop, queue_body, queue_rows, predl,
      start_queue, seed_loop, demoWorld, demoCollab, demoStack, demoTriangle, demoEdge,
      preprocess_stack, finish_learning, demoExtract, demoMin, demoProb, demoMerge,
      demoJoinEdge, demoInvalidate, edge_label_of, demoBody, LoopState.insertRow,
      LoopState.mergeLabels, LoopState.tmpqe, LoopState.popped, LoopState.rag_edge,
      demoQueued, demoSecond, demoStale, UniqueRowFeature_Label.insert, RagEdge.joins,
      QE.joins, rowKey]
  exact ⟨hv, (stale_entry_is_noop demoWorld (1/2) true false demoStale (Or.inr hv)).1⟩

/-- C9 on the demo stack: hard-example mode returns within five iterations, and
so does accumulate-all mode, with the same merges and with every key of the
first row set present in the second. -/
theorem hard_example_keys_in_accumulate_all_witness :
    ∃ r1, learn_edge_classifier_queue demoWorld 5 demoStack (1/2) ⟨[]⟩ [] false false
        = some r1 ∧
      ∃ r2, learn_edge_classifier_queue demoWorld 5 demoStack (1/2) ⟨[]⟩ [] true false
          = some r2 ∧
        r2.merged = r1.merged ∧
        ∀ row ∈ r1.all_featuresu.rows, ∃ row' ∈ r2.all_featuresu.rows,
          rowKey row' = rowKey row := by
  have hs : (learn_edge_classifier_queue demoWorld 5 demoStack (1/2) ⟨[]⟩ [] false
      false).isSome = true := by
    norm_num [learn_edge_classifier_queue, while_loop, queue_body, queue_rows, predl,
      start_queue, seed_loop, demoWorld, demoCollab, demoStack, demoTriangle, demoEdge,
      preprocess_stack, finish_learning, demoExtract, demoMin, demoProb, demoMerge,
      demoJoinEdge, demoInvalidate, edge_label_of, demoBody, LoopState.insertRow,
      LoopState.mergeLabels, LoopState.tmpqe, LoopState.popped, LoopState.rag_edge,
      demoQueued, demoSecond, demoStale, UniqueRowFeature_Label.insert, RagEdge.joins,
      QE.joins, rowKey]
  obtain ⟨r1, h1⟩ := Option.isSome_iff_exists.1 hs
  exact ⟨r1, h1, hard_example_keys_in_accumulate_all demoWorld rfl 5 demoStack (1/2) ⟨[]⟩ []
    false r1 h1⟩

/-- C10 on the demo stack with region 3 a mitochondrion: the oracle labels edge
`(3, 4)` with `-1`, and the label used is `1`. -/
theorem mito_override_label_witness :
    demoMitoWorld.find_edge_label demoStack 3 4 = -1 ∧
    edge_label_of demoMitoWorld demoStack true 3 4 = 1 :=
  ⟨by decide, (mito_override_label demoMitoWorld demoStack true 3 4).1 ⟨rfl, Or.inl rfl⟩⟩

end TrainingTheorems

/-! ## Theorems: lifetime of the scheduler and bounds from the file -/

/-- C11: what the code does instead.  When `initialize_priority_scheduler`
succeeds while a scheduler `p` is installed and live, nothing is deleted: the
live instances afterwards are the ones before followed by the new one, so `p`
is still live next to the newly installed scheduler.  (Line 26 tests
`!priority_scheduler`, so `delete` only ever sees the null pointer.) -/
theorem initialize_keeps_previous_live {H : Type} (env : Env H) (json_file : String)
    (min_val max_val start_val : ℚ) (g : Globals H) (p : SchedPtr)
    (hp : g.priority_scheduler = some p) (hlive : p ∈ g.live)
    (hok : (initialize_priority_scheduler env json_file min_val max_val start_val g).1
      = .ok true) :
    ∃ q,
      (initialize_priority_scheduler env json_file min_val max_val start_val g).2.priority_scheduler
        = some q ∧
      (initialize_priority_scheduler env json_file min_val max_val start_val g).2.live
        = g.live ++ [q] ∧
      p ∈ (initialize_priority_scheduler env json_file min_val max_val start_val g).2.live := by
  have hset : g.priority_scheduler.isNone = false := by rw [hp]; rfl
  unfold initialize_priority_scheduler at hok ⊢
  simp only [hset, Bool.false_eq_true, if_false] at hok ⊢
  by_cases hb : boundsIllegal min_val max_val start_val = true
  · simp [hb] at hok
  · simp only [hb, Bool.false_eq_true, if_false] at hok ⊢
    cases hr : (env.create_rag_from_jsonfile g.heap json_file).2 with
    | none => simp [hr] at hok
    | some ragp =>
      simp only [hr] at hok ⊢
      cases hj : env.json_parse (env.create_rag_from_jsonfile g.heap json_file).1 json_file with
      | none => simp [hj] at hok
      | some json_range =>
        simp only [hj]
        exact ⟨_, rfl, rfl, List.mem_append_left _ hlive⟩

/-- C11 on the demo world: a first successful call installs the scheduler at
address `1`; a second successful call installs the one at address `3`, and both
`1` and `3` are live afterwards. -/
theorem initialize_keeps_previous_live_witness :
    demoOnce.priority_scheduler = some 1 ∧ demoOnce.live = [1] ∧
    (initialize_priority_scheduler demoEnv "graph.json" 0 1 (1/2) demoOnce).1 = .ok true ∧
    demoTwice.priority_scheduler = some 3 ∧ demoTwice.live = [1, 3] := by
  have hne : ¬ ("graph.json" = "ranged.json") := by decide
  have h1 : demoOnce.priority_scheduler = some 1 := by
    norm_num [demoOnce, initialize_priority_scheduler, boundsIllegal, demoEnv, Globals.init,
      deleteSched, applyRange, hne]
  have h2 : demoOnce.live = [1] := by
    norm_num [demoOnce, initialize_priority_scheduler, boundsIllegal, demoEnv, Globals.init,
      deleteSched, applyRange, hne]
  have hok : (initialize_priority_scheduler demoEnv "graph.json" 0 1 (1/2) demoOnce).1
      = .ok true := by
    norm_num [demoOnce, initialize_priority_scheduler, boundsIllegal, demoEnv, Globals.init,
      deleteSched, applyRange, hne]
  have h3 : demoTwice.priority_scheduler = some 3 := by
    norm_num [demoTwice, demoOnce, initialize_priority_scheduler, boundsIllegal, demoEnv,
      Globals.init, deleteSched, applyRange, hne]
  obtain ⟨q, hq, hl, -⟩ := initialize_keeps_previous_live demoEnv "graph.json" 0 1 (1/2)
    demoOnce 1 h1 (by rw [h2]; simp) hok
  have hq3 : q = 3 := by
    have : some q = some 3 := hq.symm.trans h3
    simpa using this
  subst hq3
  refine ⟨h1, h2, hok, h3, ?_⟩
  have : demoTwice.live = demoOnce.live ++ [3] := hl
  rw [this, h2]
  rfl

section SeedingTheorems

variable {X Qt U : Type}

/-- The seeding loop from any point on: the edges still to visit become `rest'`,
one for one; the elements pushed are those of the unfiltered edges of `rest'`,
in order, and their `qloc` values count up from `count`. -/
theorem seed_loop_inv (env : Collab X Qt U) (ext : X) :
    ∀ (rest done : List RagEdge) (all_edges : List QE) (count : Nat),
      ∃ rest' : List RagEdge,
        seed_loop env ext done rest all_edges count
          = (done ++ rest', all_edges ++ (rest'.filter RagEdge.unfiltered).map RagEdge.toQE) ∧
        rest'.length = rest.length ∧
        (rest'.filter RagEdge.unfiltered).map (fun e => e.qloc)
          = (List.range' count (rest'.filter RagEdge.unfiltered).length).map some ∧
        (rest'.filter RagEdge.unfiltered).map (fun e => (e.node1, e.node2))
          = (rest.filter RagEdge.unfiltered).map (fun e => (e.node1, e.node2)) ∧
        ∀ i e, rest[i]? = some e →
          ∃ e', rest'[i]? = some e' ∧ e'.node1 = e.node1 ∧ e'.node2 = e.node2 ∧
            e'.preserve = e.preserve ∧ e'.false_edge = e.false_edge ∧
            (e.unfiltered = false → e' = e) ∧
            (e.unfiltered = true →
              e'.weight = env.get_prob ⟨done ++ rest'.take i ++ rest.drop i, ext⟩ e) := by
  intro rest
  induction rest with
  | nil =>
    intro done all_edges count
    exact ⟨[], by simp [seed_loop], rfl, by simp, by simp, by simp⟩
  | cons e t ih =>
    intro done all_edges count
    by_cases hu : e.unfiltered = true
    · have hu2 : (!e.preserve && !e.false_edge) = true := hu
      obtain ⟨t', h1, h2, h3, h4, h5⟩ := ih
        (done ++ [{ e with weight := env.get_prob ⟨done ++ e :: t, ext⟩ e, qloc := some count }])
        (all_edges ++ [⟨env.get_prob ⟨done ++ e :: t, ext⟩ e, (e.node1, e.node2), true⟩])
        (count + 1)
      refine ⟨{ e with weight := env.get_prob ⟨done ++ e :: t, ext⟩ e, qloc := some count } :: t',
        ?_, ?_, ?_, ?_, ?_⟩
      · rw [seed_loop]
        simp only [hu2, if_true]
        rw [h1]
        simp [List.filter_cons, RagEdge.unfiltered, RagEdge.toQE, hu2]
      · simp [h2]
      · have hf : RagEdge.unfiltered
            { e with weight := env.get_prob ⟨done ++ e :: t, ext⟩ e, qloc := some count } = true := hu
        simp only [List.filter_cons, hf, if_true, List.map_cons, List.length_cons,
          List.range'_succ, h3]
      · have hf : RagEdge.unfiltered
            { e with weight := env.get_prob ⟨done ++ e :: t, ext⟩ e, qloc := some count } = true := hu
        simp only [List.filter_cons, hf, hu, if_true, List.map_cons, h4]
      · intro i x hx
        cases i with
        | zero =>
          simp only [List.getElem?_cons_zero, Option.some.injEq] at hx
          subst hx
          refine ⟨{ e with weight := env.get_prob ⟨done ++ e :: t, ext⟩ e, qloc := some count },
            by simp, rfl, rfl, rfl, rfl, ?_, ?_⟩
          · intro hc; rw [hu] at hc; cases hc
          · intro _; simp
        | succ j =>
          simp only [List.getElem?_cons_succ] at hx
          obtain ⟨x', a1, a2, a3, a4, a5, a6, a7⟩ := h5 j x hx
          refine ⟨x', by simpa using a1, a2, a3, a4, a5, a6, ?_⟩
          intro hxu
          rw [a7 hxu]
          simp [List.append_assoc]
    · have hu2 : (!e.preserve && !e.false_edge) = false := by
        simpa [RagEdge.unfiltered] using hu
      have hu3 : e.unfiltered = false := by simpa using hu
      obtain ⟨t', h1, h2, h3, h4, h5⟩ := ih (done ++ [e]) all_edges count
      refine ⟨e :: t', ?_, ?_, ?_, ?_, ?_⟩
      · rw [seed_loop]
        simp only [hu2, Bool.false_eq_true, if_false]
        rw [h1]
        simp [List.filter_cons, hu3]
      · simp [h2]
      · simp only [List.filter_cons, hu3, Bool.false_eq_true, if_false, h3]
      · simp only [List.filter_cons, hu3, Bool.false_eq_true, if_false, h4]
      · intro i x hx
        cases i with
        | zero =>
          simp only [List.getElem?_cons_zero, Option.some.injEq] at hx
          subst hx
          refine ⟨e, by simp, rfl, rfl, rfl, rfl, fun _ => rfl, ?_⟩
          intro hc; rw [hu3] at hc; cases hc
        | succ j =>
          simp only [List.getElem?_cons_succ] at hx
          obtain ⟨x', a1, a2, a3, a4, a5, a6, a7⟩ := h5 j x hx
          refine ⟨x', by simpa using a1, a2, a3, a4, a5, a6, ?_⟩
          intro hxu
          rw [a7 hxu]
          simp [List.append_assoc]

/-- C12: the seeding loop of `learn_edge_classifier_queue` and of
`learn_edge_classifier_lash`, run on the edges of controller `c`.  Write
`seeded` for the edges afterwards and `all_edges` for the storage vector.
`seeded` has the edges of `c` one for one, with the same nodes and flags.
`all_edges` holds one element per unfiltered edge, in edge order, with that
edge's endpoints.  The `k`-th unfiltered edge has `qloc = k`, which is in
bounds, and `all_edges[k]` carries its endpoints and its own weight; so the
`qloc` values are `0, ..., n-1` and pairwise distinct.  The weight of an
unfiltered edge is `get_prob` of it, taken when the loop visits it.  A filtered
edge is left exactly as it was: no element, weight and `qloc` untouched.  Both
functions start their queue from this result. -/
theorem seeding_fills_storage (env : Collab X Qt U) (c : BioStackController X) :
    (seed_loop env c.ext [] c.rag [] 0).1.length = c.rag.length ∧
    (seed_loop env c.ext [] c.rag [] 0).2
      = ((seed_loop env c.ext [] c.rag [] 0).1.filter RagEdge.unfiltered).map RagEdge.toQE ∧
    (seed_loop env c.ext [] c.rag [] 0).2.map (fun q => q.val)
      = (c.rag.filter RagEdge.unfiltered).map (fun e => (e.node1, e.node2)) ∧
    ((seed_loop env c.ext [] c.rag [] 0).1.filter RagEdge.unfiltered).map (fun e => e.qloc)
      = (List.range (seed_loop env c.ext [] c.rag [] 0).2.length).map some ∧
    (((seed_loop env c.ext [] c.rag [] 0).1.filter RagEdge.unfiltered).map
      (fun e => e.qloc)).Nodup ∧
    (∀ k e', ((seed_loop env c.ext [] c.rag [] 0).1.filter RagEdge.unfiltered)[k]? = some e' →
      e'.qloc = some k ∧ k < (seed_loop env c.ext [] c.rag [] 0).2.length ∧
      (seed_loop env c.ext [] c.rag [] 0).2[k]?
        = some ⟨e'.weight, (e'.node1, e'.node2), true⟩) ∧
    (∀ i e, c.rag[i]? = some e →
      ∃ e', (seed_loop env c.ext [] c.rag [] 0).1[i]? = some e' ∧
        e'.node1 = e.node1 ∧ e'.node2 = e.node2 ∧
        e'.preserve = e.preserve ∧ e'.false_edge = e.false_edge ∧
        (e.unfiltered = false → e' = e) ∧
        (e.unfiltered = true →
          e'.weight = env.get_prob
            ⟨(seed_loop env c.ext [] c.rag [] 0).1.take i ++ c.rag.drop i, c.ext⟩ e ∧
          ∃ k, e'.qloc = some k ∧ k < (seed_loop env c.ext [] c.rag [] 0).2.length ∧
            (seed_loop env c.ext [] c.rag [] 0).2[k]?
              = some ⟨env.get_prob
                  ⟨(seed_loop env c.ext [] c.rag [] 0).1.take i ++ c.rag.drop i, c.ext⟩ e,
                (e.node1, e.node2), true⟩)) ∧
    (∀ all_featuresu : U,
      ((start_queue env c all_featuresu).controller, (start_queue env c all_featuresu).Q)
        = env.set_storage ⟨(seed_loop env c.ext [] c.rag [] 0).1, c.ext⟩
            (seed_loop env c.ext [] c.rag [] 0).2) := by
  obtain ⟨r, h1, h2, h3, h4, h5⟩ := seed_loop_inv env c.ext c.rag [] [] 0
  simp only [List.nil_append] at h1 h5
  rw [h1]
  simp only []
  have hlen : ((r.filter RagEdge.unfiltered).map RagEdge.toQE).length
      = (r.filter RagEdge.unfiltered).length := by simp
  have hq : (r.filter RagEdge.unfiltered).map (fun e => e.qloc)
      = (List.range ((r.filter RagEdge.unfiltered).map RagEdge.toQE).length).map some := by
    rw [hlen, List.range_eq_range']
    exact h3
  have hk : ∀ k e', (r.filter RagEdge.unfiltered)[k]? = some e' →
      e'.qloc = some k ∧ k < ((r.filter RagEdge.unfiltered).map RagEdge.toQE).length ∧
      ((r.filter RagEdge.unfiltered).map RagEdge.toQE)[k]?
        = some ⟨e'.weight, (e'.node1, e'.node2), true⟩ := by
    intro k e' hS
    have hlt : k < (r.filter RagEdge.unfiltered).length := by
      obtain ⟨h, _⟩ := List.getElem?_eq_some.1 hS
      exact h
    refine ⟨?_, by rw [hlen]; exact hlt, ?_⟩
    · have := congrArg (fun l => l[k]?) hq
      simp only [List.getElem?_map, hS, Option.map_some', hlen,
        List.getElem?_range hlt] at this
      simpa using this
    · simp [List.getElem?_map, hS, RagEdge.toQE]
  refine ⟨h2, trivial, ?_, hq, ?_, hk, ?_, ?_⟩
  · rw [← h4]
    simp [RagEdge.toQE, Function.comp_def]
  · rw [hq]
    exact (List.nodup_range _).map (Option.some_injective _)
  · intro i e he
    obtain ⟨e', a1, a2, a3, a4, a5, a6, a7⟩ := h5 i e he
    refine ⟨e', a1, a2, a3, a4, a5, a6, ?_⟩
    intro hu
    refine ⟨a7 hu, ?_⟩
    have hu' : e'.unfiltered = true := by
      simp only [RagEdge.unfiltered, a4, a5]
      exact hu
    have hmem : e' ∈ r.filter RagEdge.unfiltered :=
      List.mem_filter.2 ⟨List.getElem?_mem a1, hu'⟩
    obtain ⟨k, hkS⟩ := List.mem_iff_getElem?.1 hmem
    obtain ⟨b1, b2, b3⟩ := hk k e' hkS
    exact ⟨k, b1, b2, by rw [b3, a7 hu, a2, a3]⟩
  · intro all_featuresu
    simp only [start_queue, h1]

/-- C12 on a chain of four regions whose middle edge is preserved: the two
outer edges get weights `3/10` and `7/10`, `qloc` `0` and `1`, and one element
each; the preserved edge is left as it was. -/
theorem seeding_fills_storage_example :
    seed_loop demoWorld () [] demoMixed.rag [] 0
      = ([⟨1, 2, false, false, 3/10, some 0⟩, ⟨2, 3, true, false, 0, none⟩,
            ⟨3, 4, false, false, 7/10, some 1⟩],
          [⟨3/10, (1, 2), true⟩, ⟨7/10, (3, 4), true⟩]) ∧
    (((seed_loop demoWorld () [] demoMixed.rag [] 0).1.filter RagEdge.unfiltered).map
      (fun e => e.qloc)).Nodup := by
  refine ⟨?_, (seeding_fills_storage demoWorld demoMixed).2.2.2.2.1⟩
  norm_num [seed_loop, demoMixed, demoEdge, demoWorld, demoCollab, demoProb]

end SeedingTheorems

/-! ## Theorems: exporting a session -/

theorem set_grayvol_same (s : StackSession) (p : StackPtr) (v : VolumeGrayPtr) :
    (s.set_grayvol p v).get_grayvol p = v := by
  simp [StackSession.set_grayvol, StackSession.get_grayvol]

theorem set_grayvol_other (s : StackSession) (p q : StackPtr) (v : VolumeGrayPtr)
    (h : q ≠ p) : (s.set_grayvol p v).get_grayvol q = s.get_grayvol q := by
  simp [StackSession.set_grayvol, StackSession.get_grayvol, h]

/-- C14: what the code does.  Let the current stack `a` and the ground-truth
stack `b` be two objects holding the same gray volume `G`, and let
`export_session` succeed.  With `gt_mode = false` both still hold `G`
afterwards.  With `gt_mode = true` the ground-truth stack still holds `G`, but
the current stack is left with a null gray volume: it is the one exported
without gray scale, and line 128 restores it from `stack->get_grayvol()`, which
is its own, just nulled, volume. -/
theorem export_session_gray_volumes (env : SessionEnv) (session_name : String)
    (s : StackSession) (a b : StackPtr) (G : Nat)
    (hs : s.stack = some a) (hg : s.gt_stack = some b) (hab : a ≠ b)
    (ha : s.get_grayvol a = some G) (hb : s.get_grayvol b = some G)
    (hok : (export_session env session_name s).1 = .ok ()) :
    (s.gt_mode = false →
      (export_session env session_name s).2.get_grayvol a = some G ∧
      (export_session env session_name s).2.get_grayvol b = some G) ∧
    (s.gt_mode = true →
      (export_session env session_name s).2.get_grayvol a = none ∧
      (export_session env session_name s).2.get_grayvol b = some G) := by
  have hba : b ≠ a := fun h => hab h.symm
  constructor
  · intro hm
    unfold export_session at hok ⊢
    simp only [hm, Bool.false_eq_true, if_false, hs, hg] at hok ⊢
    by_cases hd : env.create_directories session_name = true
    · by_cases h1 : env.serialize_stack (s.objects a) (session_name ++ "/stack.h5")
          (session_name ++ "/graph.json") false = true
      · simp only [hd, h1, Bool.not_true, Bool.false_eq_true, if_false] at hok ⊢
        split at hok
        · simp at hok
        · rename_i h2
          simp only [h2, if_false]
          simp [StackSession.set_grayvol, StackSession.get_grayvol, hab, hba] at ha hb ⊢
          exact ha
      · simp [hd, h1] at hok
    · simp [hd] at hok
  · intro hm
    unfold export_session at hok ⊢
    simp only [hm, if_true, hs, hg] at hok ⊢
    by_cases hd : env.create_directories session_name = true
    · by_cases h1 : env.serialize_stack (s.objects b) (session_name ++ "/stack.h5")
          (session_name ++ "/graph.json") false = true
      · simp only [hd, h1, Bool.not_true, Bool.false_eq_true, if_false] at hok ⊢
        split at hok
        · simp at hok
        · rename_i h2
          simp only [h2, if_false]
          simp [StackSession.set_grayvol, StackSession.get_grayvol, hab, hba] at ha hb ⊢
          exact hb
      · simp [hd, h1] at hok
    · simp [hd] at hok

/-- C14 on the demo session, after `load_gt` and `toggle_gt`: the current stack
is the object at address `1`, the ground-truth stack the one at address `0`,
both with gray volume `7`; `export_session` succeeds and leaves the current
stack without gray volume. -/
theorem export_session_gray_volumes_witness :
    demoGtMode.gt_mode = true ∧ demoGtMode.stack = some 1 ∧ demoGtMode.gt_stack = some 0 ∧
    demoGtMode.get_grayvol 1 = some 7 ∧ demoGtMode.get_grayvol 0 = some 7 ∧
    (export_session demoSessionEnv "out" demoGtMode).1 = .ok () ∧
    (export_session demoSessionEnv "out" demoGtMode).2.get_grayvol 1 = none ∧
    (export_session demoSessionEnv "out" demoGtMode).2.get_grayvol 0 = some 7 := by
  have hm : demoGtMode.gt_mode = true := by
    simp [demoGtMode, demoWithGt, demoSession, demoSessionEnv, toggle_gt, load_gt,
      StackSession.get_grayvol]
  have hs : demoGtMode.stack = some 1 := by
    simp [demoGtMode, demoWithGt, demoSession, demoSessionEnv, toggle_gt, load_gt,
      StackSession.get_grayvol]
  have hg : demoGtMode.gt_stack = some 0 := by
    simp [demoGtMode, demoWithGt, demoSession, demoSessionEnv, toggle_gt, load_gt,
      StackSession.get_grayvol]
  have ha : demoGtMode.get_grayvol 1 = some 7 := by
    simp [demoGtMode, demoWithGt, demoSession, demoSessionEnv, toggle_gt, load_gt,
      StackSession.get_grayvol]
  have hb : demoGtMode.get_grayvol 0 = some 7 := by
    simp [demoGtMode, demoWithGt, demoSession, demoSessionEnv, toggle_gt, load_gt,
      StackSession.get_grayvol]
  have hok : (export_session demoSessionEnv "out" demoGtMode).1 = .ok () := by
    simp [export_session, demoGtMode, demoWithGt, demoSession, demoSessionEnv, toggle_gt,
      load_gt, StackSession.get_grayvol, StackSession.set_grayvol]
  exact ⟨hm, hs, hg, ha, hb, hok,
    (export_session_gray_volumes demoSessionEnv "out" demoGtMode 1 0 7 hs hg (by decide)
      ha hb hok).2 hm⟩

end NeuroProof
